import Mathlib

/-!
Shallow embedding of the spreadsheet-archive reader: the dependency-free
verification script that parses a ZIP container, decompresses entries,
decodes shared strings and sheet rows, reinterprets serial dates and infers
a rendering time zone.

Modelling conventions:
* JS strings are lists of UTF-16 code units (`List Nat`); the XML parts are
  ASCII so `Buffer.toString('utf8')` is modelled as the identity on the byte
  level (multi-byte UTF-8 content would change only the decoded payload code
  units, never the ASCII delimiters the scanners look for).
* Byte buffers are lists of byte values (`List Nat`).
* JS numbers are exact rationals (`JsNum` below) — exact for every integer
  and decimal literal the program manipulates; IEEE-754 rounding, the
  infinities and the exponential display notation are outside the embedding.
* Fallible operations return `Option` / `Except`.
* External services are oracle parameters: `inflate` for
  `zlib.inflateRawSync`, `dateParse` for `new Date(string)` and
  `render` for `Intl.DateTimeFormat`-based formatting in a named zone.
-/

/-- Code units of a string literal (exact for the ASCII text used throughout). -/
def cu (s : String) : List Nat := s.data.map Char.toNat

/-! ### Exact JS numbers -/

/-- Exact rational model of a JS number value.  All values are built by the
`jsnum` smart constructor, so they are kept in lowest terms with a positive
denominator and structural equality coincides with numeric equality. -/
structure JsNum where
  num : Int
  den : Nat
  deriving DecidableEq, Repr

/-- Normalised fraction `n / d` (`d ≠ 0` at every call site). -/
def jsnum (n : Int) (d : Nat) : JsNum :=
  if d = 0 then ⟨0, 1⟩
  else
    let g := Nat.gcd n.natAbs d
    ⟨n / (g : Int), d / g⟩

def qofInt (n : Int) : JsNum := ⟨n, 1⟩

def qsub (a b : JsNum) : JsNum := jsnum (a.num * b.den - b.num * a.den) (a.den * b.den)

def qmul (a b : JsNum) : JsNum := jsnum (a.num * b.num) (a.den * b.den)

/-- `a ≤ b` by cross multiplication (denominators are positive). -/
def qle (a b : JsNum) : Bool := a.num * b.den ≤ b.num * a.den

def qlt (a b : JsNum) : Bool := a.num * b.den < b.num * a.den

/-- Truncation toward zero, as ECMAScript `ToIntegerOrInfinity`. -/
def qtrunc (q : JsNum) : Int := Int.tdiv q.num q.den

/-! ### Character classes and small string helpers -/

/-- ECMAScript WhiteSpace ∪ LineTerminator, by code unit. -/
def jsWhitespace (c : Nat) : Bool :=
  c = 9 ∨ c = 10 ∨ c = 11 ∨ c = 12 ∨ c = 13 ∨ c = 32 ∨ c = 160 ∨ c = 5760 ∨
  (8192 ≤ c ∧ c ≤ 8202) ∨ c = 8232 ∨ c = 8233 ∨ c = 8239 ∨ c = 8287 ∨
  c = 12288 ∨ c = 65279

def jsTrim (s : List Nat) : List Nat :=
  ((s.dropWhile jsWhitespace).reverse.dropWhile jsWhitespace).reverse

/-- `String.prototype.toLowerCase`, restricted to the ASCII letters that occur
in the data this program handles (full Unicode case mapping is out of scope). -/
def jsLower (s : List Nat) : List Nat :=
  s.map fun c => if 65 ≤ c ∧ c ≤ 90 then c + 32 else c

/-- `char.toUpperCase()` on one code unit (ASCII range, as above). -/
def jsToUpperCU (c : Nat) : Nat := if 97 ≤ c ∧ c ≤ 122 then c - 32 else c

def isDigitCU (c : Nat) : Bool := 48 ≤ c ∧ c ≤ 57

def isUpperCU (c : Nat) : Bool := 65 ≤ c ∧ c ≤ 90

def isHexCU (c : Nat) : Bool :=
  (48 ≤ c ∧ c ≤ 57) ∨ (97 ≤ c ∧ c ≤ 102) ∨ (65 ≤ c ∧ c ≤ 70)

def hexDigitVal (c : Nat) : Nat :=
  if c ≤ 57 then c - 48 else if c ≤ 70 then c - 55 else c - 87

def hexListVal (ds : List Nat) : Nat := ds.foldl (fun a c => a * 16 + hexDigitVal c) 0

def decListVal (ds : List Nat) : Nat := ds.foldl (fun a c => a * 10 + (c - 48)) 0

/-- Decimal digits of a natural number, as code units. -/
def natDigits (n : Nat) : List Nat := (Nat.toDigits 10 n).map Char.toNat

/-- Index of the first occurrence of `pat` as a contiguous sublist. -/
def findSub (pat : List Nat) : List Nat → Option Nat
  | [] => if pat.isPrefixOf ([] : List Nat) then some 0 else none
  | c :: rest =>
    if pat.isPrefixOf (c :: rest) then some 0
    else (findSub pat rest).map (· + 1)

/-! ### Association lists: JS `Map` get/set and plain-object assignment -/

def assocGet {K V : Type} [DecidableEq K] : List (K × V) → K → Option V
  | [], _ => none
  | (k, v) :: rest, key => if k = key then some v else assocGet rest key

/-- `obj[k] = v` / `Map.prototype.set`: update in place keeping the position of
the first insertion, else append. -/
def objSet {K V : Type} [DecidableEq K] : List (K × V) → K → V → List (K × V)
  | [], k, v => [(k, v)]
  | (k', v') :: rest, k, v =>
    if k' = k then (k, v) :: rest else (k', v') :: objSet rest k v

/-- Append `v` to the group keyed `k`, creating the group if absent. -/
def groupPush {K V : Type} [DecidableEq K] : List (K × List V) → K → V → List (K × List V)
  | [], k, v => [(k, [v])]
  | (k', vs) :: rest, k, v =>
    if k' = k then (k', vs ++ [v]) :: rest else (k', vs) :: groupPush rest k v

/-- Stable insertion keeping earlier elements that satisfy `le · a` before `a`. -/
def insertLe {α : Type} (le : α → α → Bool) (a : α) : List α → List α
  | [] => [a]
  | b :: bs => if le b a then b :: insertLe le a bs else a :: b :: bs

/-- Stable sort ascending by `le` (the behaviour ES2019 requires of
`Array.prototype.sort` with a consistent comparator). -/
def sortLe {α : Type} (le : α → α → Bool) (l : List α) : List α :=
  l.foldl (fun acc a => insertLe le a acc) []

/-! ### decodeXmlEntities (source lines 20-30)

The source applies seven global `String.replace` passes in sequence:
the five named entities, then hexadecimal and decimal numeric entities.
Each pass is a left-to-right scan replacing non-overlapping occurrences.
`String.fromCharCode` truncates its argument to 16 bits. -/

/-- One global literal-replace pass, `value.replace(/pat/g, rep)`.
Fuel is the length of the input, which bounds the number of steps since
every step consumes at least one code unit. -/
def replaceGo (pat rep : List Nat) : Nat → List Nat → List Nat
  | _, [] => []
  | 0, l => l
  | f + 1, c :: rest =>
    if pat.isPrefixOf (c :: rest) then
      rep ++ replaceGo pat rep f ((c :: rest).drop pat.length)
    else c :: replaceGo pat rep f rest

def replaceAll (pat rep s : List Nat) : List Nat := replaceGo pat rep s.length s

/-- Global pass for `/&#x([0-9a-fA-F]+);/g` with replacement
`String.fromCharCode(parseInt(hex, 16))`. -/
def replaceHexGo : Nat → List Nat → List Nat
  | _, [] => []
  | 0, l => l
  | f + 1, c :: rest =>
    if (cu "&#x").isPrefixOf (c :: rest) then
      let after := (c :: rest).drop 3
      let ds := after.takeWhile isHexCU
      match ds, after.drop ds.length with
      | _ :: _, 59 :: rem => (hexListVal ds % 65536) :: replaceHexGo f rem
      | _, _ => c :: replaceHexGo f rest
    else c :: replaceHexGo f rest

/-- Global pass for `/&#(\d+);/g` with replacement
`String.fromCharCode(parseInt(num, 10))`. -/
def replaceDecGo : Nat → List Nat → List Nat
  | _, [] => []
  | 0, l => l
  | f + 1, c :: rest =>
    if (cu "&#").isPrefixOf (c :: rest) then
      let after := (c :: rest).drop 2
      let ds := after.takeWhile isDigitCU
      match ds, after.drop ds.length with
      | _ :: _, 59 :: rem => (decListVal ds % 65536) :: replaceDecGo f rem
      | _, _ => c :: replaceDecGo f rest
    else c :: replaceDecGo f rest

/-- `decodeXmlEntities` (source lines 20-30).  `if (!value) return ''` — the
only falsy string is the empty one. -/
def decodeXmlEntities (s : List Nat) : List Nat :=
  if s = [] then []
  else
    let s1 := replaceAll (cu "&amp;") (cu "&") s
    let s2 := replaceAll (cu "&lt;") (cu "<") s1
    let s3 := replaceAll (cu "&gt;") (cu ">") s2
    let s4 := replaceAll (cu "&quot;") (cu "\"") s3
    let s5 := replaceAll (cu "&apos;") (cu "'") s4
    let s6 := replaceHexGo s5.length s5
    replaceDecGo s6.length s6

/-! ### ZIP container (source lines 32-107) -/

/-- Little-endian 16-bit read; `none` models the `RangeError` Node's
`Buffer.readUInt16LE` throws when fewer than 2 bytes remain. -/
def readUInt16LE (buf : List Nat) (off : Nat) : Option Nat :=
  match buf[off]?, buf[off + 1]? with
  | some b0, some b1 => some (b0 + 256 * b1)
  | _, _ => none

/-- Little-endian 32-bit read (`RangeError` as `none`). -/
def readUInt32LE (buf : List Nat) (off : Nat) : Option Nat :=
  match buf[off]?, buf[off + 1]?, buf[off + 2]?, buf[off + 3]? with
  | some b0, some b1, some b2, some b3 =>
    some (b0 + 256 * b1 + 65536 * b2 + 16777216 * b3)
  | _, _, _, _ => none

/-- `buffer.slice(start, start + len)` (clamping, never failing). -/
def bufSlice (buf : List Nat) (start len : Nat) : List Nat :=
  (buf.drop start).take len

deriving instance DecidableEq for Except

inductive ZipError where
  | ArchiveFormatError
  | CentralDirectoryError
  | EntryNotFound
  | LocalHeaderError
  | UnsupportedCompression
  | InflateError
  | RangeError
  deriving DecidableEq, Repr

structure ZipEntry where
  compressionMethod : Nat
  compressedSize : Nat
  uncompressedSize : Nat
  localHeaderOffset : Nat
  deriving DecidableEq, Repr

/-- The `{ buffer, entries }` value `readZipEntries` returns.  Entry names are
kept as byte lists (`toString('utf8')` modelled as identity, see header).
`entries.set` prepends, and `assocGet` returns the first hit, which gives the
last-write-wins behaviour of `Map.prototype.set`. -/
structure ZipData where
  buffer : List Nat
  entries : List (List Nat × ZipEntry)
  deriving DecidableEq, Repr

def eocdSig : Nat := 0x06054b50

def cdSig : Nat := 0x02014b50

def localSig : Nat := 0x04034b50

/-- Backward scan `for (let i = buffer.length - 22; i >= 0; i -= 1)`:
returns the largest start position `≤ i0` holding the EOCD signature. -/
def findEocdFrom (buf : List Nat) : Nat → Option Nat
  | 0 => if readUInt32LE buf 0 = some eocdSig then some 0 else none
  | i + 1 =>
    if readUInt32LE buf (i + 1) = some eocdSig then some (i + 1)
    else findEocdFrom buf i

/-- Locate the end-of-central-directory record.  When the buffer is shorter
than 22 bytes the JS loop bound `buffer.length - 22` is negative and the scan
body never runs. -/
def findEocd (buf : List Nat) : Option Nat :=
  if buf.length < 22 then none else findEocdFrom buf (buf.length - 22)

/-- Parse `count` central-directory headers starting at `off`
(the body of the `for` loop in source lines 54-77). -/
def parseCDEntries (buf : List Nat) :
    Nat → Nat → List (List Nat × ZipEntry) → Except ZipError (List (List Nat × ZipEntry))
  | _, 0, acc => .ok acc
  | off, count + 1, acc =>
    match readUInt32LE buf off with
    | none => .error .RangeError
    | some signature =>
      if signature ≠ cdSig then .error .CentralDirectoryError
      else
        match readUInt16LE buf (off + 10), readUInt32LE buf (off + 20),
            readUInt32LE buf (off + 24), readUInt16LE buf (off + 28),
            readUInt16LE buf (off + 30), readUInt16LE buf (off + 32),
            readUInt32LE buf (off + 42) with
        | some method, some csize, some usize, some nameLen, some extraLen,
          some commentLen, some lho =>
          let name := bufSlice buf (off + 46) nameLen
          let entry : ZipEntry := ⟨method, csize, usize, lho⟩
          parseCDEntries buf (off + 46 + nameLen + extraLen + commentLen) count
            ((name, entry) :: acc)
        | _, _, _, _, _, _, _ => .error .RangeError

/-- `readZipEntries` (source lines 32-80), taking the already-loaded buffer. -/
def readZipEntries (buf : List Nat) : Except ZipError ZipData :=
  match findEocd buf with
  | none => .error .ArchiveFormatError
  | some eocdOffset =>
    match readUInt32LE buf (eocdOffset + 16), readUInt16LE buf (eocdOffset + 10) with
    | some cdOffset, some totalEntries =>
      (parseCDEntries buf cdOffset totalEntries []).map fun entries => ⟨buf, entries⟩
    | _, _ => .error .RangeError

/-- `extractZipEntry` (source lines 82-107).  `inflate` is the
`zlib.inflateRawSync` oracle; `none` models a malformed-stream throw. -/
def extractZipEntry (inflate : List Nat → Option (List Nat)) (zd : ZipData)
    (entryName : List Nat) : Except ZipError (List Nat) :=
  match assocGet zd.entries entryName with
  | none => .error .EntryNotFound
  | some entry =>
    let headerOffset := entry.localHeaderOffset
    match readUInt32LE zd.buffer headerOffset with
    | none => .error .RangeError
    | some signature =>
      if signature ≠ localSig then .error .LocalHeaderError
      else
        match readUInt16LE zd.buffer (headerOffset + 26),
            readUInt16LE zd.buffer (headerOffset + 28) with
        | some fileNameLength, some extraLength =>
          let dataStart := headerOffset + 30 + fileNameLength + extraLength
          let compressedData := bufSlice zd.buffer dataStart entry.compressedSize
          if entry.compressionMethod = 0 then .ok compressedData
          else if entry.compressionMethod = 8 then
            match inflate compressedData with
            | some out => .ok out
            | none => .error .InflateError
          else .error .UnsupportedCompression
        | _, _ => .error .RangeError

/-! ### Shared strings (source lines 128-147) -/

/-- Successive `/<si>([\s\S]*?)<\/si>/g` captures: first `<si>`, lazy content
to the first `</si>` after it, continue past it.  If an `<si>` has no closing
tag, no later one has either, so the scan ends — exactly when `exec` returns
null.  Fuel bounds the block count (each block consumes ≥ 9 code units). -/
def siBlocks : Nat → List Nat → List (List Nat)
  | 0, _ => []
  | f + 1, s =>
    match findSub (cu "<si>") s with
    | none => []
    | some i =>
      let afterOpen := s.drop (i + 4)
      match findSub (cu "</si>") afterOpen with
      | none => []
      | some j => afterOpen.take j :: siBlocks f (afterOpen.drop (j + 5))

/-- Try `/<t[^>]*>([\s\S]*?)<\/t>/` anchored at the head of `s`; on success
return the capture and the remainder after the match. -/
def tTryAt (s : List Nat) : Option (List Nat × List Nat) :=
  if (cu "<t").isPrefixOf s then
    let after := s.drop 2
    let attrs := after.takeWhile (· ≠ 62)
    match after.drop attrs.length with
    | 62 :: content =>
      match findSub (cu "</t>") content with
      | some j => some (content.take j, content.drop (j + 4))
      | none => none
    | _ => none
  else none

/-- First match of the text-run regex anywhere in `s` (the engine advances one
position after a failed anchor, which the retry models). -/
def tFirst : Nat → List Nat → Option (List Nat × List Nat)
  | 0, _ => none
  | f + 1, s =>
    match s with
    | [] => none
    | _ :: rest =>
      match tTryAt s with
      | some r => some r
      | none => tFirst f rest

/-- All captures of `matchAll(/<t[^>]*>([\s\S]*?)<\/t>/g)`. -/
def tRuns : Nat → List Nat → List (List Nat)
  | 0, _ => []
  | f + 1, s =>
    match tFirst s.length s with
    | none => []
    | some (cap, rem) => cap :: tRuns f rem

/-- Decode one shared-strings XML document into the string table
(inner loop of source lines 136-144). -/
def sharedStringsOfXml (xml : List Nat) : List (List Nat) :=
  (siBlocks xml.length xml).map fun si =>
    ((tRuns si.length si).map decodeXmlEntities).flatten

/-- `parseSharedStrings` (source lines 128-147): the `try`/`catch` maps every
extraction failure — absent entry, corrupt header, unsupported method, bad
stream — to the empty table. -/
def parseSharedStrings (inflate : List Nat → Option (List Nat)) (zd : ZipData) :
    List (List Nat) :=
  match extractZipEntry inflate zd (cu "xl/sharedStrings.xml") with
  | .error _ => []
  | .ok bytes => sharedStringsOfXml bytes

/-! ### Cell values (source lines 149-191) -/

/-- `columnLettersToIndex` (source lines 149-155). -/
def columnLettersToIndex (letters : List Nat) : Int :=
  letters.foldl (fun i c => i * 26 + ((jsToUpperCU c : Int) - 64)) 0

/-- Decoded JS value of a cell: string, number or boolean
(`''` is `.str []`). -/
inductive CellVal where
  | str (s : List Nat)
  | num (q : JsNum)
  | boolean (b : Bool)
  deriving DecidableEq, Repr

/-- JS falsiness of a cell value (`''`, `0`, `false`; `NaN` cannot occur). -/
def jsFalsy : CellVal → Bool
  | .str s => s = []
  | .num q => q.num = 0
  | .boolean b => ¬b

/-- Exact decimal digits of the fractional part `n / d` (`0 ≤ n < d`), by long
division.  Every number the program produces comes from a decimal literal, so
the expansion terminates well within the fuel. -/
def fracDigits (n d : Nat) : Nat → List Nat
  | 0 => []
  | f + 1 =>
    if n = 0 then []
    else (48 + n * 10 / d) :: fracDigits (n * 10 % d) d f

/-- `String(number)`.  JS prints the shortest decimal that round-trips through
the IEEE double; on the terminating decimals this program produces, that is
the exact expansion computed here.  (JS exponential notation outside
`[1e-6, 1e21)` is out of the embedding's scope.) -/
def numToStr (q : JsNum) : List Nat :=
  let sign : List Nat := if q.num < 0 then [45] else []
  let n := q.num.natAbs
  let intPart := natDigits (n / q.den)
  let frac := fracDigits (n % q.den) q.den 400
  sign ++ intPart ++ (if frac = [] then [] else 46 :: frac)

/-- `String(value)` on a cell value. -/
def jsToString : CellVal → List Nat
  | .str s => s
  | .num q => numToStr q
  | .boolean b => if b then cu "true" else cu "false"

/-- ECMAScript `ToNumber` on strings, for the decimal grammar
`[+|-] digits [. digits] [e [+|-] digits]` (also the `. digits` and
`digits .` forms), after trimming; the empty string is `0`.
Hexadecimal/octal/binary literals and `Infinity` are outside the embedding
and map to `none`, as do all other non-numeric strings (NaN). -/
def jsStrToNumber (s : List Nat) : Option JsNum :=
  let t := jsTrim s
  if t = [] then some (qofInt 0)
  else
    let signAndRest : Int × List Nat :=
      match t with
      | 43 :: r => (1, r)
      | 45 :: r => (-1, r)
      | r => (1, r)
    let sign := signAndRest.1
    let t1 := signAndRest.2
    let ip := t1.takeWhile isDigitCU
    let t2 := t1.drop ip.length
    let fracAndRest : List Nat × List Nat :=
      match t2 with
      | 46 :: r => (r.takeWhile isDigitCU, r.drop (r.takeWhile isDigitCU).length)
      | r => ([], r)
    let fp := fracAndRest.1
    let t3 := fracAndRest.2
    if ip = [] ∧ fp = [] then none
    else
      let mantissa : Int := sign * ((decListVal ip * 10 ^ fp.length + decListVal fp : Nat) : Int)
      let scale := fp.length
      match t3 with
      | [] => some (jsnum mantissa (10 ^ scale))
      | e :: r =>
        if e = 101 ∨ e = 69 then
          let esignAndRest : Bool × List Nat :=
            match r with
            | 43 :: r2 => (true, r2)
            | 45 :: r2 => (false, r2)
            | r2 => (true, r2)
          let r1 := esignAndRest.2
          let ed := r1.takeWhile isDigitCU
          if ed = [] ∨ r1.drop ed.length ≠ [] then none
          else
            let ev := decListVal ed
            if esignAndRest.1 then some (jsnum (mantissa * 10 ^ ev) (10 ^ scale))
            else some (jsnum mantissa (10 ^ scale * 10 ^ ev))
        else none

/-- First capture of `/t="([^"]+)"/` anchored at the head of `s`. -/
def typeTryAt (s : List Nat) : Option (List Nat) :=
  match s with
  | 116 :: 61 :: 34 :: rest =>
    let v := rest.takeWhile (· ≠ 34)
    match v, rest.drop v.length with
    | _ :: _, 34 :: _ => some v
    | _, _ => none
  | _ => none

/-- `cellXml.match(/t="([^"]+)"/)`: scan positions left to right. -/
def cellTypeOf : List Nat → Option (List Nat)
  | [] => none
  | c :: rest =>
    match typeTryAt (c :: rest) with
    | some v => some v
    | none => cellTypeOf rest

/-- Try `/<v[^>]*>([\s\S]*?)<\/v>/` anchored at the head of `s`. -/
def vTryAt (s : List Nat) : Option (List Nat) :=
  if (cu "<v").isPrefixOf s then
    let after := s.drop 2
    let attrs := after.takeWhile (· ≠ 62)
    match after.drop attrs.length with
    | 62 :: content =>
      match findSub (cu "</v>") content with
      | some j => some (content.take j)
      | none => none
    | _ => none
  else none

/-- `cellXml.match(/<v[^>]*>([\s\S]*?)<\/v>/)`: first value-node capture. -/
def valueNodeOf : List Nat → Option (List Nat)
  | [] => none
  | c :: rest =>
    match vTryAt (c :: rest) with
    | some v => some v
    | none => valueNodeOf rest

/-- `cellXml.match(/<is>[\s\S]*?<t[^>]*>([\s\S]*?)<\/t>[\s\S]*?<\/is>/)`:
first `<is>`, earliest text run after it, and a closing `</is>` somewhere
after.  (The engine's backtracking across additional text runs or `<is>`
blocks on inputs with unbalanced tags is not modelled; on well-formed
inline-string cells — one closed run inside a closed block — the two agree.) -/
def inlineOf (s : List Nat) : Option (List Nat) :=
  match findSub (cu "<is>") s with
  | none => none
  | some i =>
    let after := s.drop (i + 4)
    match tFirst after.length after with
    | none => none
    | some (cap, rem) =>
      match findSub (cu "</is>") rem with
      | some _ => some cap
      | none => none

/-- `parseCellValue` (source lines 157-191).  In the untyped numeric branch the
source's `Number.isInteger(numeric) ? Number(rawValue) : numeric` produces the
same number in both arms, so it is a single `.num`.  The shared-string lookup
`sharedStrings[Number(rawValue)] || ''` is an element access with a float key:
it hits only when the number is a nonnegative integer below the length, and
`|| ''` maps both `undefined` and an empty stored string to `''`. -/
def parseCellValue (cellXml : List Nat) (sharedStrings : List (List Nat)) : CellVal :=
  let type? := cellTypeOf cellXml
  let value? := valueNodeOf cellXml
  if type? = some (cu "inlineStr") then
    match inlineOf cellXml with
    | some t => .str (decodeXmlEntities t)
    | none => .str []
  else
    match value? with
    | none => .str []
    | some rawValue =>
      if rawValue = [] then .str []
      else if type? = some (cu "s") then
        match jsStrToNumber rawValue with
        | some q =>
          if q.den = 1 ∧ 0 ≤ q.num then .str ((sharedStrings.getD q.num.toNat []))
          else .str []
        | none => .str []
      else if type? = some (cu "b") then .boolean (rawValue = cu "1")
      else if type? = some (cu "str") then .str (decodeXmlEntities rawValue)
      else
        match jsStrToNumber rawValue with
        | some q => .num q
        | none => .str (decodeXmlEntities rawValue)

/-! ### Rows and records (source lines 193-244) -/

/-- Try `/<row[^>]*?>([\s\S]*?)<\/row>/` anchored at the head of `s`; return
the capture and the remainder after the match. -/
def rowTryAt (s : List Nat) : Option (List Nat × List Nat) :=
  if (cu "<row").isPrefixOf s then
    let after := s.drop 4
    let attrs := after.takeWhile (· ≠ 62)
    match after.drop attrs.length with
    | 62 :: content =>
      match findSub (cu "</row>") content with
      | some j => some (content.take j, content.drop (j + 6))
      | none => none
    | _ => none
  else none

/-- All captures of the global row regex (retry-on-failure advances one
position, as the engine does inside one `exec` call). -/
def rowContents : Nat → List Nat → List (List Nat)
  | 0, _ => []
  | f + 1, s =>
    match s with
    | [] => []
    | _ :: rest =>
      match rowTryAt s with
      | some (cap, rem) => cap :: rowContents f rem
      | none => rowContents f rest

/-- Walk the `[^>]*?` part of the cell regex: count of code units before the
terminator and whether the match is self-closing (`/>`) or open (`>`). -/
def cellScan : List Nat → Option (Nat × Bool)
  | [] => none
  | 47 :: 62 :: _ => some (0, true)
  | 62 :: _ => some (0, false)
  | _ :: rest => (cellScan rest).map fun p => (p.1 + 1, p.2)

/-- Try `/<c[^>]*?(?:\/>|>\s*[\s\S]*?<\/c>)/` anchored at the head of `s`:
the lazy attribute scan stops at the first `/>` or `>`; an open tag then
needs the earliest `</c>` (`\s*` plus a lazy gap reach any position). -/
def cellTryAt (s : List Nat) : Option (List Nat × List Nat) :=
  if (cu "<c").isPrefixOf s then
    match cellScan (s.drop 2) with
    | some (k, true) => some (s.take (2 + k + 2), s.drop (2 + k + 2))
    | some (k, false) =>
      let contentStart := 2 + k + 1
      match findSub (cu "</c>") (s.drop contentStart) with
      | some j => some (s.take (contentStart + j + 4), s.drop (contentStart + j + 4))
      | none => none
    | none => none
  else none

/-- All whole-match strings of the global cell regex. -/
def cellMatches : Nat → List Nat → List (List Nat)
  | 0, _ => []
  | f + 1, s =>
    match s with
    | [] => []
    | _ :: rest =>
      match cellTryAt s with
      | some (cap, rem) => cap :: cellMatches f rem
      | none => cellMatches f rest

/-- Try `/r="([A-Z]+)\d+"/` anchored at the head of `s` (greedy letter and
digit runs admit no backtracking, so the match is the maximal runs followed
by a quote). -/
def refTryAt (s : List Nat) : Option (List Nat) :=
  match s with
  | 114 :: 61 :: 34 :: rest =>
    let letters := rest.takeWhile isUpperCU
    match letters with
    | [] => none
    | _ :: _ =>
      let r2 := rest.drop letters.length
      let digits := r2.takeWhile isDigitCU
      match digits, r2.drop digits.length with
      | _ :: _, 34 :: _ => some letters
      | _, _ => none
  | _ => none

/-- `cellXml.match(/r="([A-Z]+)\d+"/)`: first reference capture. -/
def refOf : List Nat → Option (List Nat)
  | [] => none
  | c :: rest =>
    match refTryAt (c :: rest) with
    | some v => some v
    | none => refOf rest

/-- One decoded data row: a JS object from header label to cell value. -/
abbrev Record := List (List Nat × CellVal)

/-- The per-row map from 1-based column index to decoded value
(source lines 215-223). -/
def rowMapOf (rowContent : List Nat) (sharedStrings : List (List Nat)) :
    List (Int × CellVal) :=
  (cellMatches rowContent.length rowContent).foldl
    (fun m cellXml =>
      match refOf cellXml with
      | none => m
      | some letters =>
        objSet m (columnLettersToIndex letters) (parseCellValue cellXml sharedStrings))
    []

/-- Header list: values of the first row's map in ascending key order
(source lines 225-231). -/
def headersOf (m : List (Int × CellVal)) : List CellVal :=
  (sortLe (fun a b => decide (a ≤ b)) (m.map Prod.fst)).map
    fun k => (assocGet m k).getD (.str [])

/-- Build one record from the header list and a row map (source lines
233-237): a falsy header contributes nothing; a surviving header's string
form is paired with the row's value at the header's position in the header
array plus one, absent values becoming `''`. -/
def recStep (rowMap : List (Int × CellVal)) (obj : Record) (p : Nat × CellVal) : Record :=
  if jsFalsy p.2 then obj
  else objSet obj (jsToString p.2) ((assocGet rowMap ((p.1 : Int) + 1)).getD (.str []))

def buildRecord (headers : List CellVal) (rowMap : List (Int × CellVal)) : Record :=
  headers.enum.foldl (recStep rowMap) []

/-- The `rows.push(rowData)` step guarded by `Object.keys(rowData).length`
(source lines 233-240). -/
def pushRow (headers : List CellVal) (sharedStrings : List (List Nat))
    (acc : List Record) (rc : List Nat) : List Record :=
  let r := buildRecord headers (rowMapOf rc sharedStrings)
  if r = [] then acc else acc ++ [r]

/-- The row-decoding loop of `readSheetRows` (source lines 208-243), given the
already-extracted sheet XML and shared strings.  (Workbook/relationship
resolution and entry extraction, source lines 194-206, feed this loop and are
not part of any claim.)  The first decoded row becomes the header row; a later
row is pushed exactly when its record has at least one key. -/
def readSheetRowsXml (sheetXml : List Nat) (sharedStrings : List (List Nat)) :
    List Record :=
  match rowContents sheetXml.length sheetXml with
  | [] => []
  | firstRow :: dataRows =>
    let headers := headersOf (rowMapOf firstRow sharedStrings)
    dataRows.foldl (pushRow headers sharedStrings) []

/-! ### Serial dates (source lines 251-283)

`Date` values are `JsDate := Option Int`: `some ms` is a valid date holding
`ms` milliseconds since the epoch, `none` is an Invalid Date (NaN time
value).  `getFullYear` consults the host's local zone; the embedding reads
it zone-naively (UTC), as the spec does — the two agree except within hours
of the 1900/2100 boundaries. -/

abbrev JsDate := Option Int

/-- Proleptic-Gregorian civil date of a day number (day 0 = 1970-01-01). -/
def civilFromDays (z0 : Int) : Int × Int × Int :=
  let z := z0 + 719468
  let era := Int.fdiv z 146097
  let doe := z - era * 146097
  let yoe := Int.fdiv (doe - Int.fdiv doe 1460 + Int.fdiv doe 36524 - Int.fdiv doe 146096) 365
  let y := yoe + era * 400
  let doy := doe - (365 * yoe + Int.fdiv yoe 4 - Int.fdiv yoe 100)
  let mp := Int.fdiv (5 * doy + 2) 153
  let d := doy - Int.fdiv (153 * mp + 2) 5 + 1
  let m := mp + (if mp < 10 then 3 else -9)
  (y + (if m ≤ 2 then 1 else 0), m, d)

/-- Calendar year of a millisecond time value. -/
def msYear (ms : Int) : Int := (civilFromDays (Int.fdiv ms 86400000)).1

/-- ECMAScript `TimeClip`: beyond ±8.64e15 ms the time value is NaN
(Invalid Date); otherwise truncate toward zero. -/
def timeClip (ms : JsNum) : JsDate :=
  if qlt (qofInt 8640000000000000) ⟨ms.num.natAbs, ms.den⟩ then none
  else some (qtrunc ms)

/-- `Number(value)` on a cell value (`none` = NaN). -/
def jsToNumber : CellVal → Option JsNum
  | .num q => some q
  | .str s => jsStrToNumber s
  | .boolean b => some (qofInt (if b then 1 else 0))

/-- `excelSerialDateToJSDate` (source lines 251-272).  The result is
`none` for the `return null` paths and `some d` for a returned `Date`.
When the computed time value is out of clip range the `Date` is invalid,
its year is NaN, both year comparisons are false, and the invalid date is
returned as-is. -/
def excelSerialDateToJSDate (dateParse : List Nat → Option Int) (serial : CellVal) :
    Option JsDate :=
  let fallback : Option JsDate :=
    match serial with
    | .str s =>
      match dateParse s with
      | some ms => some (some ms)
      | none => none
    | _ => none
  match jsToNumber serial with
  | none => fallback
  | some n =>
    if qle n (qofInt 0) then fallback
    else
      match timeClip (qmul (qsub n (qofInt 25569)) (qofInt 86400000)) with
      | none => some none
      | some ms =>
        let y := msYear ms
        if y < 1900 ∨ 2100 < y then fallback else some (some ms)

/-- `parseDate` (source lines 274-283).  The argument is an optional cell
value (`none` = an absent field, i.e. `undefined`).  A `Date` instance can
never reach it through a decoded record. -/
def parseDate (dateParse : List Nat → Option Int) (value : Option CellVal) :
    Option JsDate :=
  match value with
  | none => none
  | some v =>
    if jsFalsy v then none
    else
      match v with
      | .num _ => excelSerialDateToJSDate dateParse v
      | .str s =>
        match dateParse s with
        | some ms => some (some ms)
        | none => none
      | .boolean _ => none

/-! ### Timezone inference (source lines 285-415)

`formatDateInTimezone` delegates to `Intl.DateTimeFormat`, an external
service carrying the IANA zone database; it is the oracle
`render : zoneName → JsDate → code units`.  (On an invalid date the real
call throws; no claim concerns that path, so the oracle is total.) -/

/-- `formatDate(value, timeZone)` (source lines 301-322) on the zone-given
path `detectTimezone` uses (`timeZone` is always one of the truthy
candidates there). -/
def formatDateTZ (render : List Nat → JsDate → List Nat)
    (dateParse : List Nat → Option Int) (value : CellVal) (tz : List Nat) : CellVal :=
  if jsFalsy value then .str []
  else
    match parseDate dateParse (some value) with
    | none => value
    | some d => .str (render tz d)

/-- JS strict equality between the computed `expected` and the record field
`actual` (possibly `undefined`): distinct types never compare equal. -/
def jsEqVal (expected : CellVal) (actual : Option CellVal) : Bool :=
  match expected, actual with
  | .str a, some (.str b) => a = b
  | .num a, some (.num b) => a = b
  | .boolean a, some (.boolean b) => a = b
  | _, _ => false

/-- The comparator of source lines 355-360: descending by time, rows without
a parsed date last.  `getTime()` of an invalid date is NaN; the sort treats a
NaN comparator result as 0. -/
def cmpCreate (a b : Record × Option JsDate) : Int :=
  match a.2, b.2 with
  | none, none => 0
  | none, some _ => 1
  | some _, none => -1
  | some da, some db =>
    match da, db with
    | some x, some y => y - x
    | _, _ => 0

/-- First element of the group after the stable sort — the row the source
keeps (`rows[0].row`).  Groups are built non-empty. -/
def latestOf (es : List (Record × Option JsDate)) : Record :=
  ((sortLe (fun a b => decide (cmpCreate a b ≤ 0)) es).headD ([], none)).1

/-- `buildLatestRowMap` (source lines 342-364). -/
def buildLatestRowMap (dateParse : List Nat → Option Int) (sheet1Rows : List Record) :
    List (List Nat × Record) :=
  let grouped : List (List Nat × List (Record × Option JsDate)) :=
    sheet1Rows.foldl
      (fun g r =>
        match assocGet r (cu "Stripe Customer Email") with
        | some (CellVal.str s) =>
          if s = [] then g
          else
            groupPush g (jsTrim (jsLower s))
              (r, parseDate dateParse (assocGet r (cu "Most Recent Create Date")))
        | _ => g)
      []
  grouped.map fun p => (p.1, latestOf p.2)

/-- `samples.push({ sourceRow, outputRow })` guarded by the numeric check on
the source row's Billing Start Date (source lines 382-385). -/
def samplePush (acc : List (Record × Record)) (sourceRow r : Record) :
    List (Record × Record) :=
  match assocGet sourceRow (cu "Billing Start Date") with
  | some (.num _) => acc ++ [(sourceRow, r)]
  | _ => acc

/-- The sample-collection loop of `detectTimezone` (source lines 376-387):
rows with a valid string email whose normalised form hits the latest-row map
contribute a pair when the source row's Billing Start Date is a number; the
loop stops as soon as 100 samples are collected. -/
def collectSamples (latestMap : List (List Nat × Record)) :
    List Record → List (Record × Record) → List (Record × Record)
  | [], acc => acc
  | r :: rest, acc =>
    match assocGet r (cu "Email") with
    | some (.str s) =>
      if s = [] then collectSamples latestMap rest acc
      else
        match assocGet latestMap (jsTrim (jsLower s)) with
        | none => collectSamples latestMap rest acc
        | some sourceRow =>
          if 100 ≤ (samplePush acc sourceRow r).length then samplePush acc sourceRow r
          else collectSamples latestMap rest (samplePush acc sourceRow r)
    | _ => collectSamples latestMap rest acc

def dateCols : List (List Nat) := [cu "Billing Start Date", cu "Billing End Date"]

/-- One column of the scoring loop (source lines 398-405): a numeric source
value is rendered in the zone and compared to the observed text. -/
def scoreCol (render : List Nat → JsDate → List Nat)
    (dateParse : List Nat → Option Int) (tz : List Nat) (sample : Record × Record)
    (mt2 : Nat × Nat) (col : List Nat) : Nat × Nat :=
  match assocGet sample.1 col with
  | some (CellVal.num q) =>
    let expected := formatDateTZ render dateParse (.num q) tz
    let actual := assocGet sample.2 col
    (mt2.1 + (if jsEqVal expected actual then 1 else 0), mt2.2 + 1)
  | _ => mt2

/-- One sample of the scoring loop: both date columns. -/
def scoreSample (render : List Nat → JsDate → List Nat)
    (dateParse : List Nat → Option Int) (tz : List Nat)
    (mt : Nat × Nat) (sample : Record × Record) : Nat × Nat :=
  dateCols.foldl (scoreCol render dateParse tz sample) mt

/-- Per-zone `(matches, total)` of the scoring loop (source lines 395-406). -/
def scoreZone (render : List Nat → JsDate → List Nat)
    (dateParse : List Nat → Option Int) (samples : List (Record × Record))
    (tz : List Nat) : Nat × Nat :=
  samples.foldl (scoreSample render dateParse tz) (0, 0)

def tzCandidates : List (List Nat) :=
  [cu "America/Chicago", cu "America/New_York", cu "America/Denver",
   cu "America/Los_Angeles", cu "UTC"]

/-- One step of the best-zone fold (source lines 394-412). -/
def detectStep (render : List Nat → JsDate → List Nat)
    (dateParse : List Nat → Option Int) (samples : List (Record × Record))
    (acc : Option (List Nat) × Int) (tz : List Nat) : Option (List Nat) × Int :=
  let mt := scoreZone render dateParse samples tz
  if mt.2 = 0 then acc
  else if (mt.1 : Int) > acc.2 then (some tz, (mt.1 : Int)) else acc

/-- `detectTimezone` (source lines 366-415). -/
def detectTimezone (render : List Nat → JsDate → List Nat)
    (dateParse : List Nat → Option Int)
    (sheet1Rows outputRows : List Record) : Option (List Nat) :=
  let latestMap := buildLatestRowMap dateParse sheet1Rows
  let samples := collectSamples latestMap outputRows []
  if samples = [] then none
  else (tzCandidates.foldl (detectStep render dateParse samples) (none, -1)).1


/-! ### Concrete fixtures -/

set_option maxRecDepth 10000

/-- A shared-strings part with two entries, the first made of two text runs. -/
def ssXml : List Nat :=
  cu "<sst><si><t>A&amp;</t><t a=\"1\">B</t></si><si><t>C</t></si></sst>"

/-- Archive holding `ssXml` as a stored entry behind a well-formed local
header (empty name/extra fields in the header, so the payload starts at
offset 30). -/
def goodZd : ZipData :=
  ⟨[0x50, 0x4B, 0x03, 0x04] ++ List.replicate 26 0 ++ ssXml,
   [(cu "xl/sharedStrings.xml", ⟨0, ssXml.length, ssXml.length, 0⟩)]⟩

/-- Archive whose shared-strings entry points at bytes that do not start with
the local-header signature. -/
def badHeaderZd : ZipData :=
  ⟨List.replicate 40 0, [(cu "xl/sharedStrings.xml", ⟨0, 5, 5, 0⟩)]⟩

/-- Archive whose shared-strings entry declares compression method 99. -/
def unsupSsZd : ZipData :=
  ⟨[0x50, 0x4B, 0x03, 0x04] ++ List.replicate 26 0 ++ [1, 2, 3],
   [(cu "xl/sharedStrings.xml", ⟨99, 3, 3, 0⟩)]⟩

/-- Archive with no entries at all. -/
def emptyZd : ZipData := ⟨[], []⟩

/-- Stored entry `e` with payload `[1, 2, 3]`. -/
def storedZd : ZipData :=
  ⟨[0x50, 0x4B, 0x03, 0x04] ++ List.replicate 26 0 ++ [1, 2, 3], [(cu "e", ⟨0, 3, 3, 0⟩)]⟩

/-- Same bytes with the entry declaring method 8 (deflate). -/
def deflateZd : ZipData :=
  ⟨[0x50, 0x4B, 0x03, 0x04] ++ List.replicate 26 0 ++ [1, 2, 3], [(cu "e", ⟨8, 3, 3, 0⟩)]⟩

/-- Same bytes with the entry declaring method 99. -/
def unsupZd : ZipData :=
  ⟨[0x50, 0x4B, 0x03, 0x04] ++ List.replicate 26 0 ++ [1, 2, 3], [(cu "e", ⟨99, 3, 3, 0⟩)]⟩

/-- A bare end-of-central-directory record declaring zero entries. -/
def eocdBuf : List Nat := [0x50, 0x4B, 0x05, 0x06] ++ List.replicate 18 0

/-- A buffer whose EOCD record declares one entry but whose central directory
bytes do not start with the central-directory signature. -/
def badCdBuf : List Nat :=
  [0, 0, 0, 0] ++ [0x50, 0x4B, 0x05, 0x06] ++ [0, 0, 0, 0, 0, 0, 1, 0] ++
    List.replicate 10 0

/-! ### Helper lemmas -/

theorem foldl_congr_mem {α β : Type} (f g : β → α → β) :
    ∀ (l : List α) (a : β), (∀ c ∈ l, ∀ i, f i c = g i c) →
      l.foldl f a = l.foldl g a := by
  intro l
  induction l with
  | nil => intro a _; rfl
  | cons c rest ih =>
    intro a h
    simp only [List.foldl_cons]
    rw [h c (by simp)]
    exact ih _ fun x hx i => h x (by simp [hx]) i

theorem replaceGo_id (p0 : Nat) (ptl rep : List Nat) :
    ∀ (f : Nat) (s : List Nat), p0 ∉ s → replaceGo (p0 :: ptl) rep f s = s := by
  intro f
  induction f with
  | zero => intro s _; cases s <;> rfl
  | succ f ih =>
    intro s hs
    cases s with
    | nil => rfl
    | cons c rest =>
      have hc : c ≠ p0 := fun h => hs (by simp [h])
      have : (p0 :: ptl).isPrefixOf (c :: rest) = false := by
        simp [List.isPrefixOf]
        intro h; exact absurd h.symm hc
      simp only [replaceGo, this, Bool.false_eq_true, if_false]
      rw [ih rest fun h => hs (by simp [h])]

theorem replaceHexGo_id :
    ∀ (f : Nat) (s : List Nat), 38 ∉ s → replaceHexGo f s = s := by
  intro f
  induction f with
  | zero => intro s _; cases s <;> rfl
  | succ f ih =>
    intro s hs
    cases s with
    | nil => rfl
    | cons c rest =>
      have hc : c ≠ 38 := fun h => hs (by simp [h])
      have : (cu "&#x").isPrefixOf (c :: rest) = false := by
        simp [cu, List.isPrefixOf]
        intro h; exact (hc h.symm).elim
      simp only [replaceHexGo, this, Bool.false_eq_true, if_false]
      rw [ih rest fun h => hs (by simp [h])]

theorem replaceDecGo_id :
    ∀ (f : Nat) (s : List Nat), 38 ∉ s → replaceDecGo f s = s := by
  intro f
  induction f with
  | zero => intro s _; cases s <;> rfl
  | succ f ih =>
    intro s hs
    cases s with
    | nil => rfl
    | cons c rest =>
      have hc : c ≠ 38 := fun h => hs (by simp [h])
      have : (cu "&#").isPrefixOf (c :: rest) = false := by
        simp [cu, List.isPrefixOf]
        intro h; exact (hc h.symm).elim
      simp only [replaceDecGo, this, Bool.false_eq_true, if_false]
      rw [ih rest fun h => hs (by simp [h])]

theorem decodeXmlEntities_id (s : List Nat) (hne : s ≠ []) (hamp : 38 ∉ s) :
    decodeXmlEntities s = s := by
  unfold decodeXmlEntities
  rw [if_neg hne]
  simp only [replaceAll]
  rw [(by decide : cu "&amp;" = 38 :: cu "amp;"),
    replaceGo_id 38 (cu "amp;") (cu "&") s.length s hamp,
    (by decide : cu "&lt;" = 38 :: cu "lt;"),
    replaceGo_id 38 (cu "lt;") (cu "<") s.length s hamp,
    (by decide : cu "&gt;" = 38 :: cu "gt;"),
    replaceGo_id 38 (cu "gt;") (cu ">") s.length s hamp,
    (by decide : cu "&quot;" = 38 :: cu "quot;"),
    replaceGo_id 38 (cu "quot;") (cu "\"") s.length s hamp,
    (by decide : cu "&apos;" = 38 :: cu "apos;"),
    replaceGo_id 38 (cu "apos;") (cu "'") s.length s hamp,
    replaceHexGo_id s.length s hamp, replaceDecGo_id s.length s hamp]

/-! ### Claim C5 — column-letter conversion -/

/-- The spec's digit weighting `A=1 … Z=26`. -/
def specColumnDigit (c : Nat) : Int := (c : Int) - 64

/-- C5: column-letter conversion maps a letter sequence to a 1-based index by
base-26 digit weighting with A=1 … Z=26, accumulating
`index = index*26 + digit` per letter; in particular A→1, Z→26, AA→27,
AZ→52, BA→53. -/
theorem c5_column_letters :
    (∀ letters : List Nat, (∀ c ∈ letters, 65 ≤ c ∧ c ≤ 90) →
      columnLettersToIndex letters =
        letters.foldl (fun i c => i * 26 + specColumnDigit c) 0) ∧
    columnLettersToIndex (cu "A") = 1 ∧ columnLettersToIndex (cu "Z") = 26 ∧
    columnLettersToIndex (cu "AA") = 27 ∧ columnLettersToIndex (cu "AZ") = 52 ∧
    columnLettersToIndex (cu "BA") = 53 := by
  refine ⟨?_, by decide, by decide, by decide, by decide, by decide⟩
  intro letters h
  unfold columnLettersToIndex
  apply foldl_congr_mem
  intro c hc i
  have hb := h c hc
  have hup : jsToUpperCU c = c := by
    unfold jsToUpperCU
    rw [if_neg]; omega
  rw [hup]
  rfl

/-- C5 witness: the general clause applied at the concrete letters "BA". -/
theorem c5_column_letters_w :
    columnLettersToIndex (cu "BA") =
      (cu "BA").foldl (fun i c => i * 26 + specColumnDigit c) 0 :=
  c5_column_letters.1 (cu "BA") (by decide)

/-! ### Claim C3 — XML entity decoding (corrected) -/

/-- C3 counterexample: the claim says each source occurrence is decoded at
most once, so that "&amp;lt;" yields the literal "&lt;".  The sequential
replace passes re-scan earlier output: the code yields "<". -/
theorem c3_entities_counterexample :
    decodeXmlEntities (cu "&amp;lt;") = cu "<" ∧ cu "<" ≠ cu "&lt;" := by
  constructor
  · decide
  · decide

/-- C3 amended: the decoder maps each named entity (&amp; &lt; &gt; &quot;
&apos;) and each numeric entity (decimal or hexadecimal) to its character,
leaves unrecognized entity patterns as literal pass-through (in particular,
text with no ampersand at all is returned unchanged), and shared-string
entries concatenate their decoded runs in document order — but the five
named-entity replacements and the two numeric ones run as sequential global
passes, so text produced by an earlier pass can be decoded again by a later
one ("&amp;lt;" yields "<", not "&lt;"). -/
theorem c3_entities_amended :
    decodeXmlEntities (cu "&amp;") = cu "&" ∧
    decodeXmlEntities (cu "&lt;") = cu "<" ∧
    decodeXmlEntities (cu "&gt;") = cu ">" ∧
    decodeXmlEntities (cu "&quot;") = cu "\"" ∧
    decodeXmlEntities (cu "&apos;") = cu "'" ∧
    decodeXmlEntities (cu "a&#65;b") = cu "aAb" ∧
    decodeXmlEntities (cu "a&#x41;b") = cu "aAb" ∧
    decodeXmlEntities (cu "&bogus;") = cu "&bogus;" ∧
    decodeXmlEntities (cu "&#xyz;") = cu "&#xyz;" ∧
    (∀ s : List Nat, s ≠ [] → 38 ∉ s → decodeXmlEntities s = s) ∧
    decodeXmlEntities (cu "&amp;lt;") = cu "<" ∧
    parseSharedStrings (fun _ => none) goodZd = [cu "A&B", cu "C"] := by
  refine ⟨by decide, by decide, by decide, by decide, by decide, by decide,
    by decide, by decide, by decide, decodeXmlEntities_id, by decide, by decide⟩

/-- C3 witness: the pass-through clause applied at concrete entity-free
text. -/
theorem c3_entities_amended_w :
    decodeXmlEntities (cu "plain text") = cu "plain text" :=
  c3_entities_amended.2.2.2.2.2.2.2.2.2.1 (cu "plain text") (by decide) (by decide)

/-! ### Claim C8 — shared-string indices and missing value nodes -/

/-- C8: for a cell of declared type 's' the value node's content is an
integer index into the shared-string table; an in-range index selects that
entry, an out-of-range index (such as 500 into a 3-entry table), a
non-integer content, an empty value node or a missing value node all decode
to empty text, never an error; a cell with no value node at all (whatever
its declared type other than inlineStr) decodes to empty text. -/
theorem c8_shared_string_lookup :
    (∀ cellXml strs raw q, cellTypeOf cellXml = some (cu "s") →
      valueNodeOf cellXml = some raw → raw ≠ [] → jsStrToNumber raw = some q →
      q.den = 1 → 0 ≤ q.num → q.num.toNat < strs.length →
      parseCellValue cellXml strs = .str (strs.getD q.num.toNat [])) ∧
    (∀ cellXml strs raw q, cellTypeOf cellXml = some (cu "s") →
      valueNodeOf cellXml = some raw → raw ≠ [] → jsStrToNumber raw = some q →
      q.den = 1 → 0 ≤ q.num → strs.length ≤ q.num.toNat →
      parseCellValue cellXml strs = .str []) ∧
    (∀ cellXml strs raw, cellTypeOf cellXml = some (cu "s") →
      valueNodeOf cellXml = some raw → raw ≠ [] → jsStrToNumber raw = none →
      parseCellValue cellXml strs = .str []) ∧
    (∀ cellXml strs, cellTypeOf cellXml = some (cu "s") →
      valueNodeOf cellXml = some [] → parseCellValue cellXml strs = .str []) ∧
    (∀ cellXml strs, cellTypeOf cellXml ≠ some (cu "inlineStr") →
      valueNodeOf cellXml = none → parseCellValue cellXml strs = .str []) ∧
    parseCellValue (cu "<c r=\"A1\" t=\"s\"><v>500</v></c>") [cu "x", cu "y", cu "z"] =
      .str [] ∧
    parseCellValue (cu "<c r=\"A1\" t=\"s\"><v>1</v></c>") [cu "x", cu "y", cu "z"] =
      .str (cu "y") ∧
    parseCellValue (cu "<c r=\"A1\" t=\"s\"/>") [cu "x", cu "y", cu "z"] = .str [] := by
  have hsne : cu "s" ≠ cu "inlineStr" := by decide
  refine ⟨?_, ?_, ?_, ?_, ?_, by decide, by decide, by decide⟩
  · intro cellXml strs raw q ht hv hraw hq hden hpos _
    unfold parseCellValue
    rw [ht, hv]
    simp [hsne, hraw, hq, hden, hpos]
  · intro cellXml strs raw q ht hv hraw hq hden hpos hlen
    unfold parseCellValue
    rw [ht, hv]
    simp [hsne, hraw, hq, hden, hpos]
    rw [List.getElem?_eq_none hlen]
    rfl
  · intro cellXml strs raw ht hv hraw hq
    unfold parseCellValue
    rw [ht, hv]
    simp [hsne, hraw, hq]
  · intro cellXml strs ht hv
    unfold parseCellValue
    rw [ht, hv]
    simp [hsne]
  · intro cellXml strs ht hv
    unfold parseCellValue
    rw [hv]
    simp [ht]

/-- C8 witness: the in-range and out-of-range clauses applied to concrete
cells over a 3-entry table. -/
theorem c8_shared_string_lookup_w :
    parseCellValue (cu "<c r=\"A1\" t=\"s\"><v>2</v></c>") [cu "x", cu "y", cu "z"] =
      .str ([cu "x", cu "y", cu "z"].getD 2 []) ∧
    parseCellValue (cu "<c r=\"A1\" t=\"s\"><v>7</v></c>") [cu "x", cu "y", cu "z"] =
      .str [] := by
  constructor
  · exact c8_shared_string_lookup.1 (cu "<c r=\"A1\" t=\"s\"><v>2</v></c>")
      [cu "x", cu "y", cu "z"] (cu "2") (qofInt 2) (by decide) (by decide) (by decide)
      (by decide) (by decide) (by decide) (by decide)
  · exact c8_shared_string_lookup.2.1 (cu "<c r=\"A1\" t=\"s\"><v>7</v></c>")
      [cu "x", cu "y", cu "z"] (cu "7") (qofInt 7) (by decide) (by decide) (by decide)
      (by decide) (by decide) (by decide) (by decide)

/-! ### Claim C6 — entry extraction -/

/-- C6: `extract(archive, name)` fails with `EntryNotFound` when the name is
absent from the index; fails with `LocalHeaderError` when the bytes at the
recorded local-header offset do not begin with the signature 0x04034b50; for
a stored entry (method 0) returns exactly the `compressedSize`-byte slice
starting at offset 30 + name-length + extra-length unchanged; for deflate
(method 8) returns the raw-inflated slice; and for any other method (such as
99) fails with `UnsupportedCompression`. -/
theorem c6_extract_entry :
    (∀ inflate zd name, assocGet (ZipData.entries zd) name = none →
      extractZipEntry inflate zd name = .error .EntryNotFound) ∧
    (∀ inflate zd name e s, assocGet (ZipData.entries zd) name = some e →
      readUInt32LE (ZipData.buffer zd) e.localHeaderOffset = some s → s ≠ localSig →
      extractZipEntry inflate zd name = .error .LocalHeaderError) ∧
    (∀ inflate zd name e n m, assocGet (ZipData.entries zd) name = some e →
      readUInt32LE (ZipData.buffer zd) e.localHeaderOffset = some localSig →
      readUInt16LE (ZipData.buffer zd) (e.localHeaderOffset + 26) = some n →
      readUInt16LE (ZipData.buffer zd) (e.localHeaderOffset + 28) = some m →
      e.compressionMethod = 0 →
      e.localHeaderOffset + 30 + n + m + e.compressedSize ≤ (ZipData.buffer zd).length →
      extractZipEntry inflate zd name =
        .ok (bufSlice (ZipData.buffer zd) (e.localHeaderOffset + 30 + n + m) e.compressedSize) ∧
      (bufSlice (ZipData.buffer zd) (e.localHeaderOffset + 30 + n + m) e.compressedSize).length =
        e.compressedSize) ∧
    (∀ inflate zd name e n m, assocGet (ZipData.entries zd) name = some e →
      readUInt32LE (ZipData.buffer zd) e.localHeaderOffset = some localSig →
      readUInt16LE (ZipData.buffer zd) (e.localHeaderOffset + 26) = some n →
      readUInt16LE (ZipData.buffer zd) (e.localHeaderOffset + 28) = some m →
      e.compressionMethod = 8 →
      extractZipEntry inflate zd name =
        match inflate (bufSlice (ZipData.buffer zd) (e.localHeaderOffset + 30 + n + m)
            e.compressedSize) with
        | some out => .ok out
        | none => .error .InflateError) ∧
    (∀ inflate zd name e n m, assocGet (ZipData.entries zd) name = some e →
      readUInt32LE (ZipData.buffer zd) e.localHeaderOffset = some localSig →
      readUInt16LE (ZipData.buffer zd) (e.localHeaderOffset + 26) = some n →
      readUInt16LE (ZipData.buffer zd) (e.localHeaderOffset + 28) = some m →
      e.compressionMethod ≠ 0 → e.compressionMethod ≠ 8 →
      extractZipEntry inflate zd name = .error .UnsupportedCompression) ∧
    extractZipEntry (fun _ => none) unsupZd (cu "e") = .error .UnsupportedCompression := by
  refine ⟨?_, ?_, ?_, ?_, ?_, by decide⟩
  · intro inflate zd name h
    unfold extractZipEntry
    rw [h]
  · intro inflate zd name e s he hs hne
    unfold extractZipEntry
    rw [he]
    simp [hs, hne]
  · intro inflate zd name e n m he hs hn hm hme hlen
    constructor
    · unfold extractZipEntry
      rw [he]
      simp [hs, hn, hm, hme]
    · unfold bufSlice
      rw [List.length_take, List.length_drop]
      omega
  · intro inflate zd name e n m he hs hn hm hme
    unfold extractZipEntry
    rw [he]
    simp [hs, hn, hm, hme]
  · intro inflate zd name e n m he hs hn hm h0 h8
    unfold extractZipEntry
    rw [he]
    simp [hs, hn, hm, h0, h8]

/-- C6 witness: the stored, deflate and not-found clauses at concrete
archives. -/
theorem c6_extract_entry_w :
    extractZipEntry (fun _ => none) storedZd (cu "e") = .ok [1, 2, 3] ∧
    extractZipEntry (fun d => some (d ++ d)) deflateZd (cu "e") = .ok [1, 2, 3, 1, 2, 3] ∧
    extractZipEntry (fun _ => none) storedZd (cu "missing") = .error .EntryNotFound := by
  refine ⟨?_, ?_, ?_⟩
  · have h := (c6_extract_entry.2.2.1 (fun _ => none) storedZd (cu "e") ⟨0, 3, 3, 0⟩ 0 0
      (by decide) (by decide) (by decide) (by decide) (by decide) (by decide)).1
    rw [h]
    decide
  · have h := c6_extract_entry.2.2.2.1 (fun d => some (d ++ d)) deflateZd (cu "e")
      ⟨8, 3, 3, 0⟩ 0 0 (by decide) (by decide) (by decide) (by decide) (by decide)
    rw [h]
    decide
  · exact c6_extract_entry.1 (fun _ => none) storedZd (cu "missing") (by decide)

/-! ### Claim C7 — archive index construction -/

theorem findEocdFrom_le (buf : List Nat) :
    ∀ k i, findEocdFrom buf k = some i → i ≤ k := by
  intro k
  induction k with
  | zero =>
    intro i h
    unfold findEocdFrom at h
    split at h
    · injection h with h2; omega
    · simp at h
  | succ k ih =>
    intro i h
    unfold findEocdFrom at h
    split at h
    · injection h with h2; omega
    · exact Nat.le_succ_of_le (ih i h)

theorem findEocdFrom_none (buf : List Nat) :
    ∀ k, (∀ i, i ≤ k → readUInt32LE buf i ≠ some eocdSig) →
      findEocdFrom buf k = none := by
  intro k
  induction k with
  | zero =>
    intro h
    unfold findEocdFrom
    rw [if_neg (h 0 (by omega))]
  | succ k ih =>
    intro h
    unfold findEocdFrom
    rw [if_neg (h (k + 1) (by omega))]
    exact ih fun i hi => h i (by omega)

theorem findEocdFrom_max (buf : List Nat) :
    ∀ k i, i ≤ k → readUInt32LE buf i = some eocdSig →
      (∀ j, i < j → j ≤ k → readUInt32LE buf j ≠ some eocdSig) →
      findEocdFrom buf k = some i := by
  intro k
  induction k with
  | zero =>
    intro i hik hi _
    have : i = 0 := by omega
    subst this
    unfold findEocdFrom
    rw [if_pos hi]
  | succ k ih =>
    intro i hik hi hmax
    unfold findEocdFrom
    by_cases hc : i = k + 1
    · subst hc
      rw [if_pos hi]
    · rw [if_neg (hmax (k + 1) (by omega) (by omega))]
      exact ih i (by omega) hi fun j h1 h2 => hmax j h1 (by omega)

theorem readUInt32LE_isSome (buf : List Nat) (i : Nat) (h : i + 4 ≤ buf.length) :
    ∃ v, readUInt32LE buf i = some v := by
  unfold readUInt32LE
  have e0 : buf[i]? = some (buf.get ⟨i, by omega⟩) := List.getElem?_eq_getElem (by omega)
  have e1 : buf[i + 1]? = some (buf.get ⟨i + 1, by omega⟩) := List.getElem?_eq_getElem (by omega)
  have e2 : buf[i + 2]? = some (buf.get ⟨i + 2, by omega⟩) := List.getElem?_eq_getElem (by omega)
  have e3 : buf[i + 3]? = some (buf.get ⟨i + 3, by omega⟩) := List.getElem?_eq_getElem (by omega)
  rw [e0, e1, e2, e3]
  exact ⟨_, rfl⟩

/-- C7: `open(bytes)` locates the end-of-central-directory record by scanning
backward from the end of the buffer for the signature 0x06054b50 (over the
start positions where a complete 22-byte record fits), taking the match
nearest the end as authoritative, and fails with `ArchiveFormatError` when no
signature exists; a stated entry count of zero yields a valid empty index,
not an error; a central-directory header not beginning with the signature
0x02014b50 makes indexing fail with `CentralDirectoryError` (the `Except`
result is all-or-nothing: either a complete index or an error, never a
partial index). -/
theorem c7_archive_index :
    (∀ buf : List Nat, (∀ i, i + 22 ≤ buf.length → readUInt32LE buf i ≠ some eocdSig) →
      readZipEntries buf = .error .ArchiveFormatError) ∧
    (∀ (buf : List Nat) (i : Nat), i + 22 ≤ buf.length →
      readUInt32LE buf i = some eocdSig →
      (∀ j, i < j → j + 22 ≤ buf.length → readUInt32LE buf j ≠ some eocdSig) →
      findEocd buf = some i) ∧
    (∀ (buf : List Nat) (i : Nat), findEocd buf = some i →
      readUInt16LE buf (i + 10) = some 0 →
      readZipEntries buf = .ok ⟨buf, []⟩) ∧
    (∀ (buf : List Nat) (off count : Nat) (acc : List (List Nat × ZipEntry)) (s : Nat),
      readUInt32LE buf off = some s → s ≠ cdSig →
      parseCDEntries buf off (count + 1) acc = .error .CentralDirectoryError) ∧
    readZipEntries eocdBuf = .ok ⟨eocdBuf, []⟩ ∧
    readZipEntries badCdBuf = .error .CentralDirectoryError := by
  refine ⟨?_, ?_, ?_, ?_, by decide, by decide⟩
  · intro buf h
    unfold readZipEntries findEocd
    by_cases hlen : buf.length < 22
    · rw [if_pos hlen]
    · rw [if_neg hlen]
      rw [findEocdFrom_none buf (buf.length - 22) fun i hi => h i (by omega)]
  · intro buf i hfit hsig hmax
    unfold findEocd
    rw [if_neg (by omega)]
    exact findEocdFrom_max buf (buf.length - 22) i (by omega) hsig
      fun j h1 h2 => hmax j h1 (by omega)
  · intro buf i hfind hcount
    have hle : i ≤ buf.length - 22 := by
      unfold findEocd at hfind
      split at hfind
      · cases hfind
      · exact findEocdFrom_le buf _ _ hfind
    have hlen : ¬ buf.length < 22 := by
      unfold findEocd at hfind
      split at hfind
      · cases hfind
      · assumption
    obtain ⟨cdOff, hcd⟩ := readUInt32LE_isSome buf (i + 16) (by omega)
    unfold readZipEntries
    rw [hfind]
    simp [hcd, hcount, parseCDEntries, Except.map]
  · intro buf off count acc s hr hne
    unfold parseCDEntries
    rw [hr]
    simp [hne]

/-- C7 witness: the no-signature, nearest-match and zero-entry clauses at
concrete buffers. -/
theorem c7_archive_index_w :
    readZipEntries (List.replicate 30 0) = .error .ArchiveFormatError ∧
    findEocd ([0x50, 0x4B, 0x05, 0x06] ++ List.replicate 22 0 ++
      [0x50, 0x4B, 0x05, 0x06] ++ List.replicate 18 0) = some 26 ∧
    readZipEntries eocdBuf = .ok ⟨eocdBuf, []⟩ := by
  refine ⟨?_, ?_, ?_⟩
  · refine c7_archive_index.1 (List.replicate 30 0) ?_
    intro i hi
    have hb : i ≤ 8 := by simp at hi; omega
    interval_cases i <;> decide
  · refine c7_archive_index.2.1 _ 26 (by decide) (by decide) ?_
    intro j h1 h2
    simp at h2
    omega
  · exact c7_archive_index.2.2.1 eocdBuf 0 (by decide) (by decide)

/-! ### Claim C1 — shared-string table error handling (corrected) -/

/-- C1 counterexample: the claim says a present entry with a corrupt local
header (or an unsupported method) makes the parse fail with
`LocalHeaderError` / `UnsupportedCompression` rather than degrading to an
empty table.  The `try`/`catch` in `parseSharedStrings` swallows those
errors: both archives below yield the empty table. -/
theorem c1_shared_strings_counterexample :
    extractZipEntry (fun _ => none) badHeaderZd (cu "xl/sharedStrings.xml") =
      .error .LocalHeaderError ∧
    parseSharedStrings (fun _ => none) badHeaderZd = [] ∧
    extractZipEntry (fun _ => none) unsupSsZd (cu "xl/sharedStrings.xml") =
      .error .UnsupportedCompression ∧
    parseSharedStrings (fun _ => none) unsupSsZd = [] := by
  refine ⟨by decide, by decide, by decide, by decide⟩

/-- C1 amended: parsing the shared-string table returns the empty sequence
whenever extraction of the part fails for any reason — absent part
(`EntryNotFound`), corrupt local header (`LocalHeaderError`), unsupported
compression method (`UnsupportedCompression`), or any other extraction
error — and decodes the extracted document otherwise; no extraction error
ever propagates out of the parse. -/
theorem c1_shared_strings_degrade :
    (∀ inflate zd, assocGet (ZipData.entries zd) (cu "xl/sharedStrings.xml") = none →
      extractZipEntry inflate zd (cu "xl/sharedStrings.xml") = .error .EntryNotFound ∧
      parseSharedStrings inflate zd = []) ∧
    (∀ inflate zd e, extractZipEntry inflate zd (cu "xl/sharedStrings.xml") = .error e →
      parseSharedStrings inflate zd = []) ∧
    (∀ inflate zd bytes, extractZipEntry inflate zd (cu "xl/sharedStrings.xml") = .ok bytes →
      parseSharedStrings inflate zd = sharedStringsOfXml bytes) := by
  refine ⟨?_, ?_, ?_⟩
  · intro inflate zd h
    have he : extractZipEntry inflate zd (cu "xl/sharedStrings.xml") =
        .error .EntryNotFound := by
      unfold extractZipEntry
      rw [h]
    refine ⟨he, ?_⟩
    unfold parseSharedStrings
    rw [he]
  · intro inflate zd e h
    unfold parseSharedStrings
    rw [h]
  · intro inflate zd bytes h
    unfold parseSharedStrings
    rw [h]

/-- C1 witness: the absent-entry clause at the empty archive and the ok
clause at a concrete archive. -/
theorem c1_shared_strings_degrade_w :
    parseSharedStrings (fun _ => none) emptyZd = [] ∧
    parseSharedStrings (fun _ => none) goodZd = sharedStringsOfXml ssXml := by
  constructor
  · exact (c1_shared_strings_degrade.1 (fun _ => none) emptyZd (by decide)).2
  · exact c1_shared_strings_degrade.2.2 (fun _ => none) goodZd ssXml (by decide)

/-! ### Record-building lemmas -/

theorem objSet_ne_nil {K V : Type} [DecidableEq K] (l : List (K × V)) (k : K) (v : V) :
    objSet l k v ≠ [] := by
  cases l with
  | nil => simp [objSet]
  | cons p rest =>
    obtain ⟨k', v'⟩ := p
    unfold objSet
    split <;> simp

theorem recStep_falsy (rowMap : List (Int × CellVal)) (obj : Record)
    (p : Nat × CellVal) (h : jsFalsy p.2 = true) : recStep rowMap obj p = obj := by
  unfold recStep
  rw [if_pos h]

theorem recStep_truthy (rowMap : List (Int × CellVal)) (obj : Record)
    (p : Nat × CellVal) (h : ¬ jsFalsy p.2 = true) :
    recStep rowMap obj p =
      objSet obj (jsToString p.2) ((assocGet rowMap ((p.1 : Int) + 1)).getD (.str [])) := by
  unfold recStep
  rw [if_neg h]

theorem foldl_recStep_ne_nil (rowMap : List (Int × CellVal)) :
    ∀ (l : List (Nat × CellVal)) (obj : Record), obj ≠ [] →
      l.foldl (recStep rowMap) obj ≠ [] := by
  intro l
  induction l with
  | nil => intro obj h; simpa using h
  | cons p rest ih =>
    intro obj h
    rw [List.foldl_cons]
    by_cases hf : jsFalsy p.2 = true
    · rw [recStep_falsy rowMap _ _ hf]
      exact ih obj h
    · rw [recStep_truthy rowMap _ _ hf]
      exact ih _ (objSet_ne_nil _ _ _)

theorem foldl_recStep_nil_iff (rowMap : List (Int × CellVal)) :
    ∀ l : List (Nat × CellVal),
      (l.foldl (recStep rowMap) [] = [] ↔ ∀ p ∈ l, jsFalsy p.2 = true) := by
  intro l
  induction l with
  | nil => simp
  | cons p rest ih =>
    rw [List.foldl_cons]
    by_cases hf : jsFalsy p.2 = true
    · rw [recStep_falsy rowMap _ _ hf]
      rw [ih]
      simp [hf]
    · rw [recStep_truthy rowMap _ _ hf]
      constructor
      · intro h
        exact absurd h (foldl_recStep_ne_nil rowMap rest _ (objSet_ne_nil _ _ _))
      · intro h
        exact absurd (h p (by simp)) hf

theorem buildRecord_eq_nil_iff (headers : List CellVal) (rowMap : List (Int × CellVal)) :
    buildRecord headers rowMap = [] ↔ ∀ h ∈ headers, jsFalsy h = true := by
  unfold buildRecord
  rw [foldl_recStep_nil_iff]
  constructor
  · intro h x hx
    have : x ∈ headers.enum.map Prod.snd := by rw [List.enum_map_snd]; exact hx
    obtain ⟨p, hp, hpx⟩ := List.mem_map.mp this
    rw [← hpx]
    exact h p hp
  · intro h p hp
    have : p.2 ∈ headers.enum.map Prod.snd := List.mem_map_of_mem _ hp
    rw [List.enum_map_snd] at this
    exact h p.2 this

theorem objSet_fresh {K V : Type} [DecidableEq K] :
    ∀ (l : List (K × V)) (k : K) (v : V), (∀ p ∈ l, p.1 ≠ k) →
      objSet l k v = l ++ [(k, v)] := by
  intro l
  induction l with
  | nil => intro k v _; rfl
  | cons p rest ih =>
    intro k v h
    obtain ⟨k', v'⟩ := p
    unfold objSet
    rw [if_neg (h (k', v') (by simp))]
    rw [ih k v fun q hq => h q (by simp [hq])]
    simp

theorem foldl_recStep_filtered (rowMap : List (Int × CellVal)) :
    ∀ (l : List (Nat × CellVal)) (obj : Record),
      (((l.filter fun p => !jsFalsy p.2).map fun p => jsToString p.2).Nodup) →
      (∀ k ∈ (l.filter fun p => !jsFalsy p.2).map fun p => jsToString p.2,
        ∀ p0 ∈ obj, p0.1 ≠ k) →
      l.foldl (recStep rowMap) obj =
        obj ++ (l.filter fun p => !jsFalsy p.2).map
          (fun p => (jsToString p.2, (assocGet rowMap ((p.1 : Int) + 1)).getD (.str []))) := by
  intro l
  induction l with
  | nil => intro obj _ _; simp
  | cons p rest ih =>
    intro obj hnd hfresh
    rw [List.foldl_cons]
    by_cases hf : jsFalsy p.2 = true
    · rw [recStep_falsy rowMap _ _ hf]
      have hfilter : (p :: rest).filter (fun p => !jsFalsy p.2) =
          rest.filter (fun p => !jsFalsy p.2) := by
        simp [List.filter_cons, hf]
      rw [hfilter] at hnd hfresh ⊢
      exact ih obj hnd hfresh
    · rw [recStep_truthy rowMap _ _ hf]
      have hfb : (!jsFalsy p.2) = true := by simp [hf]
      have hfilter : (p :: rest).filter (fun p => !jsFalsy p.2) =
          p :: rest.filter (fun p => !jsFalsy p.2) := by
        simp [List.filter_cons, hfb]
      rw [hfilter] at hnd hfresh ⊢
      simp only [List.map_cons] at hnd hfresh ⊢
      have hndtail := hnd.of_cons
      have hhead : jsToString p.2 ∉
          (rest.filter fun p => !jsFalsy p.2).map fun p => jsToString p.2 :=
        (List.nodup_cons.mp hnd).1
      rw [objSet_fresh obj (jsToString p.2) _ (hfresh (jsToString p.2) (by simp))]
      rw [ih (obj ++ [(jsToString p.2,
          (assocGet rowMap ((p.1 : Int) + 1)).getD (.str []))]) hndtail ?_]
      · simp
      · intro k hk p0 hp0
        rcases List.mem_append.mp hp0 with hmem | hmem
        · exact hfresh k (by simp [hk]) p0 hmem
        · simp at hmem
          subst hmem
          show jsToString p.2 ≠ k
          intro hcontra
          rw [hcontra] at hhead
          exact hhead hk

theorem pushRow_keep (headers : List CellVal) (strs : List (List Nat))
    (acc : List Record) (rc : List Nat)
    (h : buildRecord headers (rowMapOf rc strs) ≠ []) :
    pushRow headers strs acc rc = acc ++ [buildRecord headers (rowMapOf rc strs)] := by
  unfold pushRow
  rw [if_neg h]

theorem pushRow_drop (headers : List CellVal) (strs : List (List Nat))
    (acc : List Record) (rc : List Nat)
    (h : buildRecord headers (rowMapOf rc strs) = []) :
    pushRow headers strs acc rc = acc := by
  unfold pushRow
  rw [if_pos h]

theorem foldl_pushRow_length (headers : List CellVal) (strs : List (List Nat)) :
    ∀ (rows : List (List Nat)) (acc : List Record),
      (∀ rc ∈ rows, buildRecord headers (rowMapOf rc strs) ≠ []) →
      (rows.foldl (pushRow headers strs) acc).length = acc.length + rows.length := by
  intro rows
  induction rows with
  | nil => intro acc _; simp
  | cons rc rest ih =>
    intro acc h
    rw [List.foldl_cons]
    rw [pushRow_keep headers strs acc rc (h rc (by simp))]
    rw [ih _ fun x hx => h x (by simp [hx])]
    simp
    omega

theorem foldl_pushRow_all_nil (headers : List CellVal) (strs : List (List Nat)) :
    ∀ (rows : List (List Nat)) (acc : List Record),
      (∀ rc ∈ rows, buildRecord headers (rowMapOf rc strs) = []) →
      rows.foldl (pushRow headers strs) acc = acc := by
  intro rows
  induction rows with
  | nil => intro acc _; rfl
  | cons rc rest ih =>
    intro acc h
    rw [List.foldl_cons]
    rw [pushRow_drop headers strs acc rc (h rc (by simp))]
    exact ih _ fun x hx => h x (by simp [hx])

/-! ### Claim C2 — row dropping (corrected) -/

/-- C2 counterexample: the claim says a data row whose value at every
non-empty header's column is empty yields zero non-empty fields and is
dropped.  In the code the record keeps a key for every truthy header even
when the value is empty, and the push is guarded by the key count, so the
all-empty data row below is kept (with an empty-text field), not dropped. -/
theorem c2_row_dropping_counterexample :
    readSheetRowsXml (cu "<row><c r=\"A1\" t=\"str\"><v>H</v></c></row><row></row>") [] =
      [[(cu "H", .str [])]] ∧
    readSheetRowsXml (cu "<row><c r=\"A1\" t=\"str\"><v>H</v></c></row><row></row>") [] ≠
      [] := by
  constructor
  · decide
  · decide

/-- C2 amended: a data row after the header row contributes one record with a
key for every truthy header (absent or empty values becoming empty text), so
whenever the header row has at least one truthy header, every data row is
kept — the record count equals the data-row count regardless of the rows'
values; a row is dropped exactly when the record has no keys, which happens
precisely when every header cell decoded falsy, in which case every data row
is dropped. -/
theorem c2_row_dropping_amended :
    ∀ (xml : List Nat) (strs : List (List Nat)) (firstRow : List Nat)
      (dataRows : List (List Nat)),
      rowContents xml.length xml = firstRow :: dataRows →
      ((∃ h ∈ headersOf (rowMapOf firstRow strs), jsFalsy h = false) →
        (readSheetRowsXml xml strs).length = dataRows.length) ∧
      ((∀ h ∈ headersOf (rowMapOf firstRow strs), jsFalsy h = true) →
        readSheetRowsXml xml strs = []) := by
  intro xml strs firstRow dataRows hrows
  constructor
  · intro hex
    unfold readSheetRowsXml
    rw [hrows]
    have hne : ∀ rc ∈ dataRows,
        buildRecord (headersOf (rowMapOf firstRow strs)) (rowMapOf rc strs) ≠ [] := by
      intro rc _ hnil
      rw [buildRecord_eq_nil_iff] at hnil
      obtain ⟨h, hmem, hfalse⟩ := hex
      rw [hnil h hmem] at hfalse
      cases hfalse
    rw [foldl_pushRow_length _ _ dataRows [] hne]
    simp
  · intro hall
    unfold readSheetRowsXml
    rw [hrows]
    exact foldl_pushRow_all_nil _ _ dataRows [] fun rc _ =>
      (buildRecord_eq_nil_iff _ _).mpr hall

/-- C2 witness: the keep-all clause applied at a concrete two-data-row sheet
(one row with a value, one row entirely empty). -/
theorem c2_row_dropping_amended_w :
    (readSheetRowsXml
      (cu "<row><c r=\"A1\" t=\"str\"><v>H</v></c></row><row><c r=\"A2\" t=\"str\"><v>x</v></c></row><row></row>")
      []).length = 2 := by
  have h := (c2_row_dropping_amended
    (cu "<row><c r=\"A1\" t=\"str\"><v>H</v></c></row><row><c r=\"A2\" t=\"str\"><v>x</v></c></row><row></row>")
    [] (cu "<c r=\"A1\" t=\"str\"><v>H</v></c>")
    [cu "<c r=\"A2\" t=\"str\"><v>x</v></c>", []] (by decide)).1
  rw [h ⟨.str (cu "H"), by decide, by decide⟩]
  rfl

/-! ### Claim C10 — falsy headers are skipped, survivors coerced to strings -/

/-- C10: a header column is skipped whenever its decoded value is falsy — not
only empty text but also boolean false and the number 0 — so such a cell
contributes no field to any record; surviving non-string headers are coerced
to their string form to serve as field names.  The general clause gives the
record shape (under distinct surviving names, as JS object keys collide
otherwise); the concrete sheet shows a numeric-0 header and a boolean-false
header contributing nothing. -/
theorem c10_falsy_header_skip :
    jsFalsy (.num (qofInt 0)) = true ∧ jsFalsy (.boolean false) = true ∧
    jsFalsy (.str []) = true ∧ jsFalsy (.num (qofInt 7)) = false ∧
    jsFalsy (.boolean true) = false ∧
    jsToString (.num (qofInt 7)) = cu "7" ∧ jsToString (.boolean true) = cu "true" ∧
    (∀ (headers : List CellVal) (rowMap : List (Int × CellVal)),
      (((headers.enum.filter fun p => !jsFalsy p.2).map fun p => jsToString p.2).Nodup) →
      buildRecord headers rowMap =
        (headers.enum.filter fun p => !jsFalsy p.2).map
          fun p => (jsToString p.2, (assocGet rowMap ((p.1 : Int) + 1)).getD (.str []))) ∧
    readSheetRowsXml
      (cu "<row><c r=\"A1\"><v>0</v></c><c r=\"B1\" t=\"str\"><v>Name</v></c><c r=\"C1\" t=\"b\"><v>0</v></c></row><row><c r=\"A2\" t=\"str\"><v>x</v></c><c r=\"B2\" t=\"str\"><v>y</v></c><c r=\"C2\" t=\"str\"><v>z</v></c></row>")
      [] = [[(cu "Name", .str (cu "y"))]] := by
  refine ⟨by decide, by decide, by decide, by decide, by decide, by decide, by decide,
    ?_, by decide⟩
  intro headers rowMap hnd
  unfold buildRecord
  exact foldl_recStep_filtered rowMap headers.enum [] hnd (by intro k _ p0 hp0; cases hp0)

/-- C10 witness: the general record-shape clause applied at a concrete header
list containing a numeric zero, a boolean false and two surviving headers. -/
theorem c10_falsy_header_skip_w :
    buildRecord [.num (qofInt 0), .str (cu "A"), .boolean false, .boolean true]
      [(2, .str (cu "v"))] =
      [(cu "A", .str (cu "v")), (cu "true", .str [])] := by
  have h := c10_falsy_header_skip.2.2.2.2.2.2.2.1
    [.num (qofInt 0), .str (cu "A"), .boolean false, .boolean true]
    [(2, .str (cu "v"))] (by decide)
  rw [h]
  decide

/-! ### Claim C4 — serial-date reinterpretation (corrected) -/

/-- C4 counterexample: the claim says a Number value is accepted as a date
only if the resulting calendar year (of the instant (n − 25569) days after
the epoch) lies within 1900–2100.  For serial 200000000 that year is far
beyond 2100, yet the code returns a Date: the computed time value exceeds
the representable range, the Date is invalid, its NaN year fails both
comparisons, and the invalid date is returned rather than rejected. -/
theorem c4_serial_date_counterexample :
    excelSerialDateToJSDate (fun _ => none) (.num (qofInt 200000000)) = some none ∧
    2100 < (civilFromDays (200000000 - 25569)).1 := by
  constructor
  · decide
  · decide

/-- C4 amended: date reinterpretation of a Number value n computes the
instant as (n − 25569) days after the standard epoch; when that instant is
within the representable time range (|ms| ≤ 8.64e15, the `timeClip ... =
some ms` hypothesis) it is accepted exactly when the calendar year lies
within 1900–2100, the value 44927 decoding (zone-naively) to 2023-01-01;
an instant beyond the representable range yields an Invalid Date that is
returned as accepted, since both year comparisons against its NaN year are
false; a value of 0 or negative fails reinterpretation, falling back to
calendar-string parsing when the original value was text and otherwise
yielding no date. -/
theorem c4_serial_date_amended :
    (∀ (dp : List Nat → Option Int) (q : JsNum), qle q (qofInt 0) = true →
      excelSerialDateToJSDate dp (.num q) = none) ∧
    (∀ (dp : List Nat → Option Int) (s : List Nat) (q : JsNum),
      jsStrToNumber s = some q → qle q (qofInt 0) = true →
      excelSerialDateToJSDate dp (.str s) =
        (match dp s with | some ms => some (some ms) | none => none)) ∧
    (∀ (dp : List Nat → Option Int) (q : JsNum) (ms : Int), qle q (qofInt 0) = false →
      timeClip (qmul (qsub q (qofInt 25569)) (qofInt 86400000)) = some ms →
      (1900 ≤ msYear ms → msYear ms ≤ 2100 →
        excelSerialDateToJSDate dp (.num q) = some (some ms)) ∧
      (msYear ms < 1900 ∨ 2100 < msYear ms →
        excelSerialDateToJSDate dp (.num q) = none)) ∧
    (∀ (dp : List Nat → Option Int) (q : JsNum), qle q (qofInt 0) = false →
      timeClip (qmul (qsub q (qofInt 25569)) (qofInt 86400000)) = none →
      excelSerialDateToJSDate dp (.num q) = some none) ∧
    (∀ k : Int, qmul (qsub (qofInt k) (qofInt 25569)) (qofInt 86400000) =
      qofInt ((k - 25569) * 86400000)) ∧
    excelSerialDateToJSDate (fun _ => none) (.num (qofInt 44927)) =
      some (some 1672531200000) ∧
    civilFromDays (Int.fdiv 1672531200000 86400000) = (2023, 1, 1) ∧
    (∀ (dp : List Nat → Option Int) (q : JsNum),
      parseDate dp (some (.num q)) =
        if q.num = 0 then none else excelSerialDateToJSDate dp (.num q)) := by
  refine ⟨?_, ?_, ?_, ?_, ?_, by decide, by decide, ?_⟩
  · intro dp q h
    unfold excelSerialDateToJSDate
    simp [jsToNumber, h]
  · intro dp s q hs h
    unfold excelSerialDateToJSDate
    simp [jsToNumber, hs, h]
  · intro dp q ms hpos hclip
    constructor
    · intro h1 h2
      unfold excelSerialDateToJSDate
      simp [jsToNumber, hpos, hclip]
      omega
    · intro hout
      unfold excelSerialDateToJSDate
      simp [jsToNumber, hpos, hclip]
      omega
  · intro dp q hpos hclip
    unfold excelSerialDateToJSDate
    simp [jsToNumber, hpos, hclip]
  · intro k
    unfold qofInt qsub qmul jsnum
    simp
  · intro dp q
    unfold parseDate
    by_cases h : q.num = 0
    · simp [jsFalsy, h]
    · simp [jsFalsy, h]

/-- C4 witness: the clauses applied at serial 0, text "-3", serial 44927 and
the out-of-range serial 200000000. -/
theorem c4_serial_date_amended_w :
    excelSerialDateToJSDate (fun _ => none) (.num (qofInt 0)) = none ∧
    excelSerialDateToJSDate (fun _ => some 42) (.str (cu "-3")) = some (some 42) ∧
    excelSerialDateToJSDate (fun _ => none) (.num (qofInt 44927)) =
      some (some 1672531200000) ∧
    excelSerialDateToJSDate (fun _ => none) (.num (qofInt 200000000)) = some none := by
  refine ⟨?_, ?_, ?_, ?_⟩
  · exact c4_serial_date_amended.1 (fun _ => none) (qofInt 0) (by decide)
  · exact c4_serial_date_amended.2.1 (fun _ => some 42) (cu "-3") (qofInt (-3))
      (by decide) (by decide)
  · exact (c4_serial_date_amended.2.2.1 (fun _ => none) (qofInt 44927) 1672531200000
      (by decide) (by decide)).1 (by decide) (by decide)
  · exact c4_serial_date_amended.2.2.2.1 (fun _ => none) (qofInt 200000000)
      (by decide) (by decide)

/-! ### Claim C9 — timezone inference lemmas -/

theorem collectSamples_cap (m : List (List Nat × Record)) :
    ∀ (rows : List Record) (acc : List (Record × Record)), acc.length < 100 →
      (collectSamples m rows acc).length ≤ 100 := by
  intro rows
  induction rows with
  | nil => intro acc h; unfold collectSamples; omega
  | cons r rest ih =>
    intro acc h
    unfold collectSamples
    split
    · next s heq =>
      split
      · exact ih acc h
      · split
        · exact ih acc h
        · next sourceRow hsrc =>
          have hlen : (samplePush acc sourceRow r).length ≤ acc.length + 1 := by
            unfold samplePush
            split <;> simp
          split
          · omega
          · next hle => exact ih (samplePush acc sourceRow r) (by omega)
    · exact ih acc h

/-- Every collected sample's source row carries a numeric Billing Start
Date. -/
theorem collectSamples_bsd (m : List (List Nat × Record)) :
    ∀ (rows : List Record) (acc : List (Record × Record)),
      (∀ p ∈ acc, ∃ q, assocGet p.1 (cu "Billing Start Date") = some (.num q)) →
      ∀ p ∈ collectSamples m rows acc,
        ∃ q, assocGet p.1 (cu "Billing Start Date") = some (.num q) := by
  intro rows
  induction rows with
  | nil => intro acc h; unfold collectSamples; exact h
  | cons r rest ih =>
    intro acc h
    unfold collectSamples
    split
    · next s heq =>
      split
      · exact ih acc h
      · split
        · exact ih acc h
        · next sourceRow hsrc =>
          have h2 : ∀ p ∈ samplePush acc sourceRow r,
              ∃ q, assocGet p.1 (cu "Billing Start Date") = some (.num q) := by
            unfold samplePush
            split
            · next q2 hq2 =>
              intro p hp
              rcases List.mem_append.mp hp with hmem | hmem
              · exact h p hmem
              · simp at hmem
                subst hmem
                exact ⟨q2, hq2⟩
            · exact h
          split
          · exact h2
          · exact ih _ h2
    · exact ih acc h

theorem scoreCol_snd_ge (render : List Nat → JsDate → List Nat)
    (dateParse : List Nat → Option Int) (tz : List Nat) (sample : Record × Record)
    (mt2 : Nat × Nat) (col : List Nat) :
    mt2.2 ≤ (scoreCol render dateParse tz sample mt2 col).2 := by
  unfold scoreCol
  split <;> simp

theorem scoreSample_snd_ge (render : List Nat → JsDate → List Nat)
    (dateParse : List Nat → Option Int) (tz : List Nat) (sample : Record × Record)
    (mt : Nat × Nat) :
    mt.2 ≤ (scoreSample render dateParse tz mt sample).2 := by
  unfold scoreSample dateCols
  simp only [List.foldl_cons, List.foldl_nil]
  calc mt.2 ≤ (scoreCol render dateParse tz sample mt (cu "Billing Start Date")).2 :=
        scoreCol_snd_ge _ _ _ _ _ _
    _ ≤ _ := scoreCol_snd_ge _ _ _ _ _ _

theorem scoreSample_snd_pos (render : List Nat → JsDate → List Nat)
    (dateParse : List Nat → Option Int) (tz : List Nat) (sample : Record × Record)
    (mt : Nat × Nat) (q : JsNum)
    (hq : assocGet sample.1 (cu "Billing Start Date") = some (.num q)) :
    mt.2 + 1 ≤ (scoreSample render dateParse tz mt sample).2 := by
  unfold scoreSample dateCols
  simp only [List.foldl_cons, List.foldl_nil]
  have h1 : (scoreCol render dateParse tz sample mt (cu "Billing Start Date")).2 =
      mt.2 + 1 := by
    unfold scoreCol
    rw [hq]
  calc mt.2 + 1 = (scoreCol render dateParse tz sample mt (cu "Billing Start Date")).2 :=
        h1.symm
    _ ≤ _ := scoreCol_snd_ge _ _ _ _ _ _

theorem foldl_scoreSample_snd_ge (render : List Nat → JsDate → List Nat)
    (dateParse : List Nat → Option Int) (tz : List Nat) :
    ∀ (samples : List (Record × Record)) (mt : Nat × Nat),
      mt.2 ≤ (samples.foldl (scoreSample render dateParse tz) mt).2 := by
  intro samples
  induction samples with
  | nil => intro mt; simp
  | cons s rest ih =>
    intro mt
    rw [List.foldl_cons]
    calc mt.2 ≤ (scoreSample render dateParse tz mt s).2 :=
          scoreSample_snd_ge _ _ _ _ _
      _ ≤ _ := ih _

theorem scoreZone_snd_pos (render : List Nat → JsDate → List Nat)
    (dateParse : List Nat → Option Int) (samples : List (Record × Record))
    (tz : List Nat)
    (hne : samples ≠ [])
    (hbsd : ∀ p ∈ samples, ∃ q, assocGet p.1 (cu "Billing Start Date") = some (.num q)) :
    (scoreZone render dateParse samples tz).2 ≠ 0 := by
  unfold scoreZone
  cases samples with
  | nil => exact absurd rfl hne
  | cons s rest =>
    rw [List.foldl_cons]
    obtain ⟨q, hq⟩ := hbsd s (by simp)
    have h1 := scoreSample_snd_pos render dateParse tz s (0, 0) q hq
    have h2 := foldl_scoreSample_snd_ge render dateParse tz rest
      (scoreSample render dateParse tz (0, 0) s)
    omega

theorem detectStep_skip (render : List Nat → JsDate → List Nat)
    (dateParse : List Nat → Option Int) (samples : List (Record × Record))
    (acc : Option (List Nat) × Int) (tz : List Nat)
    (h : (scoreZone render dateParse samples tz).2 = 0) :
    detectStep render dateParse samples acc tz = acc := by
  unfold detectStep
  rw [if_pos h]

theorem detectStep_better (render : List Nat → JsDate → List Nat)
    (dateParse : List Nat → Option Int) (samples : List (Record × Record))
    (acc : Option (List Nat) × Int) (tz : List Nat)
    (h : (scoreZone render dateParse samples tz).2 ≠ 0)
    (hgt : ((scoreZone render dateParse samples tz).1 : Int) > acc.2) :
    detectStep render dateParse samples acc tz =
      (some tz, ((scoreZone render dateParse samples tz).1 : Int)) := by
  unfold detectStep
  rw [if_neg h, if_pos hgt]

theorem detectStep_worse (render : List Nat → JsDate → List Nat)
    (dateParse : List Nat → Option Int) (samples : List (Record × Record))
    (acc : Option (List Nat) × Int) (tz : List Nat)
    (h : (scoreZone render dateParse samples tz).2 ≠ 0)
    (hle : ¬ ((scoreZone render dateParse samples tz).1 : Int) > acc.2) :
    detectStep render dateParse samples acc tz = acc := by
  unfold detectStep
  rw [if_neg h, if_neg hle]

/-- The best-zone fold starting from an already-selected zone lands on the
first zone attaining the maximal match count among the start zone and the
remaining candidates. -/
theorem detect_fold_first_argmax (render : List Nat → JsDate → List Nat)
    (dateParse : List Nat → Option Int) (samples : List (Record × Record)) :
    ∀ (l : List (List Nat)) (z : List Nat),
      (∀ y ∈ l, (scoreZone render dateParse samples y).2 ≠ 0) →
      ∃ w pre post,
        l.foldl (detectStep render dateParse samples)
            (some z, ((scoreZone render dateParse samples z).1 : Int)) =
          (some w, ((scoreZone render dateParse samples w).1 : Int)) ∧
        z :: l = pre ++ w :: post ∧
        (∀ y ∈ pre,
          (scoreZone render dateParse samples y).1 <
            (scoreZone render dateParse samples w).1) ∧
        (∀ y ∈ z :: l,
          (scoreZone render dateParse samples y).1 ≤
            (scoreZone render dateParse samples w).1) := by
  intro l
  induction l with
  | nil =>
    intro z _
    exact ⟨z, [], [], by simp, by simp, by simp, by simp⟩
  | cons x xs ih =>
    intro z htot
    rw [List.foldl_cons]
    by_cases hgt : (scoreZone render dateParse samples z).1 <
        (scoreZone render dateParse samples x).1
    · rw [detectStep_better render dateParse samples _ x (htot x (by simp))
        (by simp; omega)]
      obtain ⟨w, pre, post, hfold, hdec, hpre, hall⟩ := ih x fun y hy => htot y (by simp [hy])
      refine ⟨w, z :: pre, post, hfold, by rw [hdec]; rfl, ?_, ?_⟩
      · intro y hy
        rcases List.mem_cons.mp hy with rfl | hmem
        · have hx : (scoreZone render dateParse samples x).1 ≤
              (scoreZone render dateParse samples w).1 := hall x (by simp)
          omega
        · exact hpre y hmem
      · intro y hy
        rcases List.mem_cons.mp hy with rfl | hmem
        · have hx : (scoreZone render dateParse samples x).1 ≤
              (scoreZone render dateParse samples w).1 := hall x (by simp)
          omega
        · exact hall y hmem
    · rw [detectStep_worse render dateParse samples _ x (htot x (by simp))
        (by simp; omega)]
      obtain ⟨w, pre, post, hfold, hdec, hpre, hall⟩ := ih z fun y hy => htot y (by simp [hy])
      cases pre with
      | nil =>
        simp at hdec
        refine ⟨w, [], x :: xs, hfold, by simp [hdec.1], by simp, ?_⟩
        intro y hy
        have hzle := hall z (by simp)
        rcases List.mem_cons.mp hy with rfl | hmem
        · exact hzle
        · rcases List.mem_cons.mp hmem with rfl | hmem2
          · omega
          · exact hall y (by simp [hmem2])
      | cons z' pre2 =>
        have hz' : z' = z := by
          have := congrArg (fun t => t.head?) hdec
          simpa using this.symm
        subst hz'
        have hxs : xs = pre2 ++ w :: post := by
          have := congrArg List.tail hdec
          simpa using this
        refine ⟨w, z' :: x :: pre2, post, hfold, by rw [hxs]; rfl, ?_, ?_⟩
        · intro y hy
          have hzw : (scoreZone render dateParse samples z').1 <
              (scoreZone render dateParse samples w).1 := hpre z' (by simp)
          rcases List.mem_cons.mp hy with rfl | hmem
          · exact hzw
          · rcases List.mem_cons.mp hmem with rfl | hmem2
            · omega
            · exact hpre y (by simp [hmem2])
        · intro y hy
          have hzw : (scoreZone render dateParse samples z').1 ≤
              (scoreZone render dateParse samples w).1 := hall z' (by simp)
          rcases List.mem_cons.mp hy with rfl | hmem
          · exact hzw
          · rcases List.mem_cons.mp hmem with rfl | hmem2
            · omega
            · exact hall y (by simp [hmem2])

/-- C9: timezone inference scores each candidate zone by counting exact
string matches between the zone-rendered form of each sample's numeric date
fields and the observed text (`scoreZone`), selects the zone with the
highest match count with ties resolved in favor of the earlier-listed
candidate (the chosen zone is the first attaining the maximum), collects at
most 100 sample pairs, and returns null exactly when no date-bearing sample
pairs exist.  Rendering and string-date parsing are the `render`/`dateParse`
oracles standing for `Intl.DateTimeFormat` and `new Date(string)`. -/
theorem c9_timezone_inference :
    ∀ (render : List Nat → JsDate → List Nat) (dateParse : List Nat → Option Int)
      (sheet1Rows outputRows : List Record),
      (collectSamples (buildLatestRowMap dateParse sheet1Rows) outputRows []).length ≤
        100 ∧
      (detectTimezone render dateParse sheet1Rows outputRows = none ↔
        collectSamples (buildLatestRowMap dateParse sheet1Rows) outputRows [] = []) ∧
      (collectSamples (buildLatestRowMap dateParse sheet1Rows) outputRows [] ≠ [] →
        ∃ w pre post,
          detectTimezone render dateParse sheet1Rows outputRows = some w ∧
          tzCandidates = pre ++ w :: post ∧
          (∀ y ∈ pre,
            (scoreZone render dateParse
                (collectSamples (buildLatestRowMap dateParse sheet1Rows) outputRows [])
                y).1 <
              (scoreZone render dateParse
                (collectSamples (buildLatestRowMap dateParse sheet1Rows) outputRows [])
                w).1) ∧
          (∀ y ∈ tzCandidates,
            (scoreZone render dateParse
                (collectSamples (buildLatestRowMap dateParse sheet1Rows) outputRows [])
                y).1 ≤
              (scoreZone render dateParse
                (collectSamples (buildLatestRowMap dateParse sheet1Rows) outputRows [])
                w).1)) := by
  intro render dateParse s1 out
  set m := buildLatestRowMap dateParse s1 with hm
  set S := collectSamples m out [] with hS
  have hdet : detectTimezone render dateParse s1 out =
      if S = [] then none
      else (tzCandidates.foldl (detectStep render dateParse S) (none, -1)).1 := rfl
  have hmain : S ≠ [] →
      ∃ w pre post,
        (tzCandidates.foldl (detectStep render dateParse S) (none, -1)).1 = some w ∧
        tzCandidates = pre ++ w :: post ∧
        (∀ y ∈ pre, (scoreZone render dateParse S y).1 <
          (scoreZone render dateParse S w).1) ∧
        (∀ y ∈ tzCandidates, (scoreZone render dateParse S y).1 ≤
          (scoreZone render dateParse S w).1) := by
    intro hne
    have hbsd : ∀ p ∈ S, ∃ q, assocGet p.1 (cu "Billing Start Date") = some (.num q) :=
      collectSamples_bsd m out [] (by intro p hp; cases hp)
    have htotal : ∀ tz, (scoreZone render dateParse S tz).2 ≠ 0 := fun tz =>
      scoreZone_snd_pos render dateParse S tz hne hbsd
    have hsplit : tzCandidates = cu "America/Chicago" :: tzCandidates.tail := rfl
    have hstep : detectStep render dateParse S (none, -1) (cu "America/Chicago") =
        (some (cu "America/Chicago"),
          ((scoreZone render dateParse S (cu "America/Chicago")).1 : Int)) := by
      refine detectStep_better render dateParse S _ _ (htotal _) ?_
      show ((scoreZone render dateParse S (cu "America/Chicago")).1 : Int) > -1
      omega
    obtain ⟨w, pre, post, hfold, hdec, hpre, hall⟩ :=
      detect_fold_first_argmax render dateParse S tzCandidates.tail
        (cu "America/Chicago") (fun y _ => htotal y)
    refine ⟨w, pre, post, ?_, ?_, hpre, ?_⟩
    · rw [hsplit, List.foldl_cons, hstep, hfold]
    · rw [hsplit, hdec]
    · intro y hy
      refine hall y ?_
      rw [hsplit] at hy
      exact hy
  refine ⟨collectSamples_cap m out [] (by simp), ?_, ?_⟩
  · constructor
    · intro h
      by_cases hne : S = []
      · exact hne
      · obtain ⟨w, _, _, hw, _, _, _⟩ := hmain hne
        rw [hdet, if_neg hne] at h
        rw [h] at hw
        cases hw
    · intro h
      rw [hdet, if_pos h]
  · intro hne
    obtain ⟨w, pre, post, hw, hdec, hpre, hall⟩ := hmain hne
    exact ⟨w, pre, post, by rw [hdet, if_neg hne]; exact hw, hdec, hpre, hall⟩

/-- C9 witness: a concrete run with one matching sample pair, where only the
first candidate's rendering matches the observed text; the inference returns
it, the null case fires on an empty sheet, and the cap holds. -/
theorem c9_timezone_inference_w :
    detectTimezone
      (fun tz d => if tz = cu "America/Chicago" then
        (match d with | some ms => natDigits ms.natAbs | none => []) else cu "X")
      (fun _ => none)
      [[(cu "Stripe Customer Email", .str (cu "A@x.com")),
        (cu "Most Recent Create Date", .num (qofInt 44927)),
        (cu "Billing Start Date", .num (qofInt 44927)),
        (cu "Billing End Date", .num (qofInt 44928))]]
      [[(cu "Email", .str (cu "a@x.com")),
        (cu "Billing Start Date", .str (natDigits 1672531200000)),
        (cu "Billing End Date", .str (natDigits 1672617600000))]] =
      some (cu "America/Chicago") ∧
    detectTimezone (fun _ _ => []) (fun _ => none) []
      [[(cu "Email", .str (cu "a@x.com"))]] = none := by
  constructor
  · obtain ⟨w, pre, post, hw, hdec, hpre, hall⟩ :=
      (c9_timezone_inference
        (fun tz d => if tz = cu "America/Chicago" then
          (match d with | some ms => natDigits ms.natAbs | none => []) else cu "X")
        (fun _ => none)
        [[(cu "Stripe Customer Email", .str (cu "A@x.com")),
          (cu "Most Recent Create Date", .num (qofInt 44927)),
          (cu "Billing Start Date", .num (qofInt 44927)),
          (cu "Billing End Date", .num (qofInt 44928))]]
        [[(cu "Email", .str (cu "a@x.com")),
          (cu "Billing Start Date", .str (natDigits 1672531200000)),
          (cu "Billing End Date", .str (natDigits 1672617600000))]]).2.2
        (by decide)
    rw [hw]
    congr 1
    have hxs : w ∈ tzCandidates := by
      rw [hdec]
      exact List.mem_append_right _ (by simp)
    have hscore := hall (cu "America/Chicago") (by decide)
    revert hscore
    fin_cases hxs <;> simp_all <;> decide
  · exact ((c9_timezone_inference (fun _ _ => []) (fun _ => none) []
      [[(cu "Email", .str (cu "a@x.com"))]]).2.1).mpr (by decide)
